import Mathlib

/-!
# External linkout service and self-registration roles service

A shallow embedding of `pkg/externalLinkout/ExternalLinkoutService.go` and
`pkg/user/SelfRegistrationRolesService.go`.

Conventions of the embedding:

* Go `int` values are `Int`; the only integer conversion in the source,
  `int32(request.UserId)`, is `toInt32`.
* A Go slice is a `List`; the nil slice and the empty slice are both `[]`,
  except for the role catalog, where the source tests `roleEntries != nil`
  and the fetched slice is an `Option (List _)` with `none` for nil.
* A Go `error` is an `Option GoError`, `none` for nil.  A Go return pair
  `(value, error)` is a Lean pair; a returned nil pointer is `none`.
* Omitted fields of a Go struct literal take the zero value: the structures
  below carry the zero values as field defaults.
* A repository method is a function of an explicit storage state `σ` that
  returns its Go results together with the next state.  A method that takes a
  pointer and may write through it (`Save(t)`, then `t.Id`) returns the struct.
* `time.Now()` and the audit timestamps are left out; `AuditLog.UpdatedBy`
  is kept.  Logger calls have no effect on the results and are left out.
* Iterating a Go map has an unspecified order: every `range` over a map takes
  its order from a `MapOrder`, an arbitrary permutation of the entries.
-/

namespace ExternalLinkout

/-! ## Data model -/

/-- Go error values: an error produced by a collaborator, or the
`util.ApiError` built by the service. -/
inductive GoError where
  | storage (msg : String)
  | api (InternalMessage : String) (UserMessage : String)
  deriving DecidableEq

/-- Row type `ExternalLinks` of the link repository, with the fields the
service reads or writes. -/
structure ExternalLinks where
  Id : Int := 0
  ExternalLinksMonitoringToolId : Int := 0
  Name : String := ""
  Url : String := ""
  Active : Bool := false
  UpdatedBy : Int := 0
  deriving DecidableEq

/-- Row type `ExternalLinksClusters` of the link-cluster repository, with the
fields the service reads or writes; `ExternalLinks` is the joined link. -/
structure ExternalLinksClusters where
  ExternalLinksId : Int := 0
  ClusterId : Int := 0
  Active : Bool := false
  ExternalLinks : ExternalLinks := {}
  deriving DecidableEq

/-- The request and response type `ExternalLinkoutRequest`. -/
structure ExternalLinkoutRequest where
  Id : Int := 0
  Name : String := ""
  Url : String := ""
  Active : Bool := false
  MonitoringToolId : Int := 0
  ClusterIds : List Int := []
  UserId : Int := 0
  deriving DecidableEq

/-- Go conversion `int32(x)` of an `int`: wrap to 32 bits, two's complement. -/
def toInt32 (x : Int) : Int := (x + 2 ^ 31) % 2 ^ 32 - 2 ^ 31

/-! ## Repositories -/

/-- The methods of `ExternalLinksRepository` and
`ExternalLinksClustersRepository` that the service calls, over a storage
state `σ`. -/
structure Repos (σ : Type) where
  linksSave : ExternalLinks → σ → (ExternalLinks × Option GoError) × σ
  linksUpdate : ExternalLinks → σ → Option GoError × σ
  linksFindOne : Int → σ → (ExternalLinks × Option GoError) × σ
  linksFindAllNonMapped : List Int → σ → (List ExternalLinks × Option GoError) × σ
  clustersSave : ExternalLinksClusters → σ → Option GoError × σ
  clustersUpdate : ExternalLinksClusters → σ → Option GoError × σ
  clustersFindAllActive : σ → (List ExternalLinksClusters × Option GoError) × σ
  clustersFindAllActiveByClusterId : Int → σ → (List ExternalLinksClusters × Option GoError) × σ
  clustersFindAllClusters : Int → σ → (List Int × Option GoError) × σ

/-- A repository call with its arguments. -/
inductive Op where
  | linksSave (row : ExternalLinks)
  | linksUpdate (row : ExternalLinks)
  | linksFindOne (id : Int)
  | linksFindAllNonMapped (ids : List Int)
  | clustersSave (row : ExternalLinksClusters)
  | clustersUpdate (row : ExternalLinksClusters)
  | clustersFindAllActive
  | clustersFindAllActiveByClusterId (clusterId : Int)
  | clustersFindAllClusters (id : Int)
  deriving DecidableEq

/-- One repository call as it happened: the call and the error it returned. -/
structure Call where
  op : Op
  err : Option GoError
  deriving DecidableEq

/-- The same repositories, recording every call in order next to the state. -/
def logged {σ : Type} (r : Repos σ) : Repos (σ × List Call) where
  linksSave t st :=
    let res := r.linksSave t st.1
    (res.1, (res.2, st.2 ++ [⟨Op.linksSave t, res.1.2⟩]))
  linksUpdate t st :=
    let res := r.linksUpdate t st.1
    (res.1, (res.2, st.2 ++ [⟨Op.linksUpdate t, res.1⟩]))
  linksFindOne id st :=
    let res := r.linksFindOne id st.1
    (res.1, (res.2, st.2 ++ [⟨Op.linksFindOne id, res.1.2⟩]))
  linksFindAllNonMapped ids st :=
    let res := r.linksFindAllNonMapped ids st.1
    (res.1, (res.2, st.2 ++ [⟨Op.linksFindAllNonMapped ids, res.1.2⟩]))
  clustersSave x st :=
    let res := r.clustersSave x st.1
    (res.1, (res.2, st.2 ++ [⟨Op.clustersSave x, res.1⟩]))
  clustersUpdate x st :=
    let res := r.clustersUpdate x st.1
    (res.1, (res.2, st.2 ++ [⟨Op.clustersUpdate x, res.1⟩]))
  clustersFindAllActive st :=
    let res := r.clustersFindAllActive st.1
    (res.1, (res.2, st.2 ++ [⟨Op.clustersFindAllActive, res.1.2⟩]))
  clustersFindAllActiveByClusterId c st :=
    let res := r.clustersFindAllActiveByClusterId c st.1
    (res.1, (res.2, st.2 ++ [⟨Op.clustersFindAllActiveByClusterId c, res.1.2⟩]))
  clustersFindAllClusters id st :=
    let res := r.clustersFindAllClusters id st.1
    (res.1, (res.2, st.2 ++ [⟨Op.clustersFindAllClusters id, res.1.2⟩]))

/-- The state after one repository call. -/
def Repos.after {σ : Type} (r : Repos σ) : Op → σ → σ
  | Op.linksSave t, s => (r.linksSave t s).2
  | Op.linksUpdate t, s => (r.linksUpdate t s).2
  | Op.linksFindOne id, s => (r.linksFindOne id s).2
  | Op.linksFindAllNonMapped ids, s => (r.linksFindAllNonMapped ids s).2
  | Op.clustersSave x, s => (r.clustersSave x s).2
  | Op.clustersUpdate x, s => (r.clustersUpdate x s).2
  | Op.clustersFindAllActive, s => (r.clustersFindAllActive s).2
  | Op.clustersFindAllActiveByClusterId c, s => (r.clustersFindAllActiveByClusterId c s).2
  | Op.clustersFindAllClusters id, s => (r.clustersFindAllClusters id s).2

/-- The state after a sequence of repository calls, made in order. -/
def replay {σ : Type} (r : Repos σ) (calls : List Call) (s : σ) : σ :=
  calls.foldl (fun st c => r.after c.op st) s

/-- A call sequence that ran up to its first error: with result `none` no
call failed; with an error result the last call failed and no call before it. -/
def StopsAtFirstError (calls : List Call) (res : Option GoError) : Prop :=
  (res = none ∧ ∀ c ∈ calls, c.err = none) ∨
  (res ≠ none ∧ ∃ pre last, calls = pre ++ [last] ∧ last.err ≠ none ∧ ∀ c ∈ pre, c.err = none)

/-- Whether a call is `Save` of the link repository. -/
def Op.isLinksSave : Op → Bool
  | Op.linksSave _ => true
  | _ => false

/-- Whether a call is `Save` of the link-cluster repository. -/
def Op.isClustersSave : Op → Bool
  | Op.clustersSave _ => true
  | _ => false

/-- Whether a call is one of the two `Save` methods. -/
def Op.isSave : Op → Bool
  | Op.linksSave _ => true
  | Op.clustersSave _ => true
  | _ => false

/-! ## Create -/

/-- The `util.ApiError` of a failed link insert. -/
def linkCreateError : GoError :=
  GoError.api "external link failed to create in db" "external link failed to create in db"

/-- The `util.ApiError` of a failed association insert or update. -/
def clusterCreateError : GoError :=
  GoError.api "cluster id failed to create in db" "cluster id failed to create in db"

/-- Lines 71-77: the link row that `Create` builds from a request. -/
def newLink (request : ExternalLinkoutRequest) : ExternalLinks :=
  { Name := request.Name,
    Active := true,
    ExternalLinksMonitoringToolId := request.MonitoringToolId,
    Url := request.Url }

/-- Lines 89-93: the association row that `Create` builds for a cluster id of
the request; the literal sets no `Active` field. -/
def newMapping (t : ExternalLinks) (clusterId : Int) : ExternalLinksClusters :=
  { ExternalLinksId := t.Id,
    ClusterId := clusterId }

/-- Inner loop of `Create` (lines 88-103): one `Save` per cluster id of the
request, stopping at the first error. -/
def createClusters {σ : Type} (r : Repos σ) (t : ExternalLinks) :
    List Int → σ → Option GoError × σ
  | [], s => (none, s)
  | clusterId :: rest, s =>
    let externalLinksMapping := newMapping t clusterId
    match r.clustersSave externalLinksMapping s with
    | (some _, s1) => (some clusterCreateError, s1)
    | (none, s1) => createClusters r t rest s1

/-- Outer loop of `Create` (lines 70-104). -/
def createLoop {σ : Type} (r : Repos σ) :
    List ExternalLinkoutRequest → σ → Option GoError × σ
  | [], s => (none, s)
  | request :: rest, s =>
    let t := newLink request
    match r.linksSave t s with
    | ((_, some _), s1) => (some linkCreateError, s1)
    | ((t1, none), s1) =>
      match createClusters r t1 request.ClusterIds s1 with
      | (some err, s2) => (some err, s2)
      | (none, s2) => createLoop r rest s2

/-- `ExternalLinkoutServiceImpl.Create`. -/
def Create {σ : Type} (r : Repos σ) (requests : List ExternalLinkoutRequest) (s : σ) :
    (List ExternalLinkoutRequest × Option GoError) × σ :=
  match createLoop r requests s with
  | (some err, s1) => (([], some err), s1)
  | (none, s1) => ((requests, none), s1)

/-! ## What the spec says of Create, as a call sequence -/

/-- The association inserts of one request as the spec lists them, none left
out: one `Save` per cluster id of the request, in order, for the link row `t`,
each with the error the repository returns in the state the calls before it
left. -/
def saveAllClusters {σ : Type} (r : Repos σ) (t : ExternalLinks) : List Int → σ → List Call
  | [], _ => []
  | clusterId :: rest, s =>
    ⟨Op.clustersSave (newMapping t clusterId), (r.clustersSave (newMapping t clusterId) s).1⟩ ::
      saveAllClusters r t rest (r.clustersSave (newMapping t clusterId) s).2

/-- The inserts of a list of requests as the spec lists them, none left out:
for each request, in order, the `Save` of its link row and then the
association inserts of the request for the link row as `Save` returned it,
each call with the error the repository returns in the state the calls before
it left. -/
def saveAll {σ : Type} (r : Repos σ) : List ExternalLinkoutRequest → σ → List Call
  | [], _ => []
  | request :: rest, s =>
    let saved := r.linksSave (newLink request) s
    let clusterCalls := saveAllClusters r saved.1.1 request.ClusterIds saved.2
    ⟨Op.linksSave (newLink request), saved.1.2⟩ ::
      (clusterCalls ++ saveAll r rest (replay r clusterCalls saved.2))

/-- The calls of a sequence up to and including the first one that returned
an error; the whole sequence when none did. -/
def throughFirstError : List Call → List Call
  | [] => []
  | c :: rest => if c.err = none then c :: throughFirstError rest else [c]

/-- The error the spec gives `Create` for a sequence of inserts: nil when no
insert failed, otherwise the api error of the first failed insert, which is
the link error for a link insert and the cluster error for an association
insert. -/
def createError : List Call → Option GoError
  | [] => none
  | c :: rest =>
    if c.err = none then createError rest
    else if c.op.isLinksSave then some linkCreateError else some clusterCreateError

/-! ## FetchAllActiveLinks -/

/-- Iteration order of a Go map: `iter` lists the entries of a map in the
order a `range` statement visits them, some permutation of the entries. -/
structure MapOrder where
  iter : (α : Type) → List (Int × α) → List (Int × α)
  perm : ∀ (α : Type) (m : List (Int × α)), (iter α m).Perm m

/-- Map read `m[k]` with the comma-ok form: `none` when the key is absent. -/
def mapLoad {α : Type} : List (Int × α) → Int → Option α
  | [], _ => none
  | (k1, v1) :: m, k => if k1 = k then some v1 else mapLoad m k

/-- Map write `m[k] = v`: replaces the entry of an existing key, adds an
entry for a new key. -/
def mapStore {α : Type} : List (Int × α) → Int → α → List (Int × α)
  | [], k, v => [(k, v)]
  | (k1, v1) :: m, k, v => if k1 = k then (k, v) :: m else (k1, v1) :: mapStore m k v

/-- Lines 135-140: the link ids of the rows, collected in a map keyed by link
id, then read back by iterating the map. -/
def mappedIds (mo : MapOrder) (allActiveExternalLinks : List ExternalLinksClusters) : List Int :=
  let externalLinksMap : List (Int × Int) :=
    allActiveExternalLinks.foldl
      (fun m link => mapStore m link.ExternalLinksId link.ExternalLinksId) []
  (mo.iter Int externalLinksMap).map Prod.snd

/-- The response struct built from the joined link of a row (lines 155-160
and 165-170); `Id` and `ClusterIds` are not set. -/
def linkResponse (link : ExternalLinksClusters) : ExternalLinkoutRequest :=
  { Name := link.ExternalLinks.Name,
    Url := link.ExternalLinks.Url,
    Active := link.ExternalLinks.Active,
    MonitoringToolId := link.ExternalLinks.ExternalLinksMonitoringToolId }

/-- Lines 164-172: the grouping branch of the loop body. -/
def groupStep (response : List (Int × ExternalLinkoutRequest)) (link : ExternalLinksClusters) :
    List (Int × ExternalLinkoutRequest) :=
  let response1 :=
    match mapLoad response link.ExternalLinksId with
    | none => mapStore response link.ExternalLinksId (linkResponse link)
    | some _ => response
  match mapLoad response1 link.ExternalLinksId with
  | some v =>
    mapStore response1 link.ExternalLinksId { v with ClusterIds := v.ClusterIds ++ [link.ClusterId] }
  | none => response1

/-- Lines 153-174: the loop body, on the pair `(externalLinkResponse, response)`. -/
def collectStep (clusterId : Int)
    (acc : List ExternalLinkoutRequest × List (Int × ExternalLinkoutRequest))
    (link : ExternalLinksClusters) :
    List ExternalLinkoutRequest × List (Int × ExternalLinkoutRequest) :=
  if clusterId > 0 then
    let providerRes := linkResponse link
    (acc.1 ++ [{ providerRes with ClusterIds := providerRes.ClusterIds ++ [link.ClusterId] }], acc.2)
  else
    (acc.1, groupStep acc.2 link)

/-- Lines 185-194: the response entry of a link without active association. -/
def unmappedResponse (link : ExternalLinks) : ExternalLinkoutRequest :=
  { Name := link.Name,
    Url := link.Url,
    Active := link.Active,
    MonitoringToolId := link.ExternalLinksMonitoringToolId,
    ClusterIds := [] }

/-- The entry that the spec describes for a link id `k` over association
rows `rows`: the link fields of the first row of that link, and as
`ClusterIds` the cluster ids of all rows of that link, in row order. -/
def groupedResponse (rows : List ExternalLinksClusters) (k : Int) : ExternalLinkoutRequest :=
  { linkResponse ((rows.find? (fun row => row.ExternalLinksId = k)).getD {}) with
    ClusterIds := (rows.filter (fun row => row.ExternalLinksId = k)).map (fun row => row.ClusterId) }

/-- `ExternalLinkoutServiceImpl.FetchAllActiveLinks`. -/
def FetchAllActiveLinks {σ : Type} (mo : MapOrder) (r : Repos σ) (clusterId : Int) (s : σ) :
    (List ExternalLinkoutRequest × Option GoError) × σ :=
  let res0 := r.clustersFindAllActive s
  let allActiveExternalLinks := res0.1.1
  let mappedExternalLinksIds := mappedIds mo allActiveExternalLinks
  let res1 :=
    if clusterId = 0 then ((allActiveExternalLinks, res0.1.2), res0.2)
    else r.clustersFindAllActiveByClusterId clusterId res0.2
  match res1 with
  | ((_, some err), s1) => (([], some err), s1)
  | ((links, none), s1) =>
    let acc := links.foldl (collectStep clusterId) ([], [])
    let externalLinkResponse := acc.1 ++ (mo.iter ExternalLinkoutRequest acc.2).map Prod.snd
    match r.linksFindAllNonMapped mappedExternalLinksIds s1 with
    | ((_, some err), s2) => (([], some err), s2)
    | ((additionalExternalLinks, none), s2) =>
      ((externalLinkResponse ++ additionalExternalLinks.map unmappedResponse, none), s2)

/-! ## Update and DeleteLink -/

/-- Lines 223-228 of `Update` and lines 269-274 of `DeleteLink`: the
association row with `Active: false`. -/
def inactiveMapping (id clusterId : Int) : ExternalLinksClusters :=
  { ExternalLinksId := id,
    ClusterId := clusterId,
    Active := false }

/-- Lines 243-248 of `Update`: the association row with `Active: true`. -/
def activeMapping (id requestedClusterId : Int) : ExternalLinksClusters :=
  { ExternalLinksId := id,
    ClusterId := requestedClusterId,
    Active := true }

/-- Lines 205-210 of `Update`: the loaded link row with the fields of the
request written over it. -/
def updatedLink (externalLinks : ExternalLinks) (request : ExternalLinkoutRequest) :
    ExternalLinks :=
  { externalLinks with
    Name := request.Name,
    Url := request.Url,
    Active := request.Active,
    ExternalLinksMonitoringToolId := request.MonitoringToolId,
    UpdatedBy := toInt32 request.UserId }

/-- Lines 280-284 of `DeleteLink`: the link row with only `Id` set and
`Active: false`. -/
def deletedLink (id : Int) : ExternalLinks :=
  { Id := id,
    Active := false }

/-- Lines 222-233 of `Update` and lines 268-279 of `DeleteLink`: one
repository `Update` with `Active: false` per cluster id, errors only logged. -/
def deactivateAll {σ : Type} (r : Repos σ) (id : Int) : List Int → σ → σ
  | [], s => s
  | clusterId :: rest, s =>
    let x := inactiveMapping id clusterId
    deactivateAll r id rest (r.clustersUpdate x s).2

/-- Lines 235-241: the search of the requested cluster id among the existing
ones. -/
def flagOf (requestedClusterId : Int) : List Int → Int
  | [] => 0
  | existingClusterId :: rest =>
    if requestedClusterId = existingClusterId then 1 else flagOf requestedClusterId rest

/-- Lines 234-262: the loop over the requested cluster ids. -/
def writeRequested {σ : Type} (r : Repos σ) (id : Int) (allExternalLinksMapping : List Int) :
    List Int → σ → Option GoError × σ
  | [], s => (none, s)
  | requestedClusterId :: rest, s =>
    let flag := flagOf requestedClusterId allExternalLinksMapping
    let x := activeMapping id requestedClusterId
    match (if flag = 1 then r.clustersUpdate x s else r.clustersSave x s) with
    | (some _, s1) => (some clusterCreateError, s1)
    | (none, s1) => writeRequested r id allExternalLinksMapping rest s1

/-- `ExternalLinkoutServiceImpl.Update`. -/
def Update {σ : Type} (r : Repos σ) (request : ExternalLinkoutRequest) (s : σ) :
    (Option ExternalLinkoutRequest × Option GoError) × σ :=
  match r.linksFindOne request.Id s with
  | ((_, some err0), s1) => ((none, some err0), s1)
  | ((externalLinks, none), s1) =>
    let externalLinks1 := updatedLink externalLinks request
    match r.linksUpdate externalLinks1 s1 with
    | (some err, s2) => ((none, some err), s2)
    | (none, s2) =>
      match r.clustersFindAllClusters request.Id s2 with
      | ((_, some err), s3) => ((none, some err), s3)
      | ((allExternalLinksMapping, none), s3) =>
        let s4 := deactivateAll r request.Id allExternalLinksMapping s3
        match writeRequested r request.Id allExternalLinksMapping request.ClusterIds s4 with
        | (some err, s5) => ((none, some err), s5)
        | (none, s5) => ((some request, none), s5)

/-- `ExternalLinkoutServiceImpl.DeleteLink`. -/
def DeleteLink {σ : Type} (r : Repos σ) (id : Int) (s : σ) : Option GoError × σ :=
  let res0 := r.clustersFindAllClusters id s
  let externalLinksMapping := res0.1.1
  let s1 := deactivateAll r id externalLinksMapping res0.2
  let link := deletedLink id
  match r.linksUpdate link s1 with
  | (some err, s2) => (some err, s2)
  | (none, s2) => (none, s2)

/-! ## A relational store for the repositories -/

/-- Modelled from the spec: the tables behind the link repository and the
link-cluster repository, whose implementation is outside the two source
files.  A link row is identified by its `Id`, an association row by its
(link id, cluster id) pair; the `ExternalLinks` field of a stored association
row is not used, reads fill it by joining the link table. -/
structure Store where
  links : List ExternalLinks := []
  clusters : List ExternalLinksClusters := []
  deriving DecidableEq

/-- Modelled from the spec: the storage-assigned id of a new link row, above
every id in the link table. -/
def Store.nextId (st : Store) : Int :=
  (st.links.map (fun l => l.Id)).foldl max 0 + 1

/-- Modelled from the spec: an association row as a read returns it, joined
with its link. -/
def Store.join (st : Store) (row : ExternalLinksClusters) : ExternalLinksClusters :=
  { row with ExternalLinks := (st.links.find? (fun l => l.Id = row.ExternalLinksId)).getD {} }

/-- Modelled from the spec: repository `Update` of an association, which
sets the active flag of the rows of the (link id, cluster id) pair of `x`. -/
def Store.setActive (x : ExternalLinksClusters) (rows : List ExternalLinksClusters) :
    List ExternalLinksClusters :=
  rows.map (fun row =>
    if row.ExternalLinksId = x.ExternalLinksId ∧ row.ClusterId = x.ClusterId then
      { row with Active := x.Active }
    else row)

/-- Modelled from the spec: what `FindAllClusters` returns, the cluster ids
of all association rows of a link, whatever their active flag. -/
def Store.clusterIdsOf (st : Store) (id : Int) : List Int :=
  (st.clusters.filter (fun row => row.ExternalLinksId = id)).map (fun row => row.ClusterId)

/-- Modelled from the spec: the repository methods of section 6 on a `Store`
whose calls never fail, except `FindOne` of an absent id.  `Save` adds a row
(a link row with a fresh id), `Update` of a link overwrites the row of that
id, `Update` of an association sets the active flag of the rows of that pair,
`FindAllActive` and `FindAllActiveByClusterId` return the active association
rows, `FindAllClusters` the cluster ids of all association rows of a link
whatever their active flag, `FindAllNonMapped` the links whose id is not among
the given ids. -/
def storeRepos : Repos Store where
  linksSave t st :=
    let t1 : ExternalLinks := { t with Id := st.nextId }
    ((t1, none), { st with links := st.links ++ [t1] })
  linksUpdate t st :=
    (none, { st with links := st.links.map (fun l => if l.Id = t.Id then t else l) })
  linksFindOne id st :=
    match st.links.find? (fun l => l.Id = id) with
    | some l => ((l, none), st)
    | none => (({}, some (GoError.storage "no rows in result set")), st)
  linksFindAllNonMapped ids st :=
    ((st.links.filter (fun l => decide (l.Id ∉ ids)), none), st)
  clustersSave x st :=
    (none, { st with clusters := st.clusters ++ [x] })
  clustersUpdate x st :=
    (none, { st with clusters := Store.setActive x st.clusters })
  clustersFindAllActive st :=
    (((st.clusters.filter (fun row => row.Active)).map st.join, none), st)
  clustersFindAllActiveByClusterId clusterId st :=
    (((st.clusters.filter (fun row => row.Active && decide (row.ClusterId = clusterId))).map st.join,
      none), st)
  clustersFindAllClusters id st :=
    ((st.clusterIdsOf id, none), st)

/-- A storage behaviour with failures: the calls selected by `bad` return an
error, change nothing and return zero values; the other calls go to `r`. -/
def failing {σ : Type} (bad : Op → Bool) (r : Repos σ) : Repos σ where
  linksSave t st :=
    if bad (Op.linksSave t) then ((t, some (GoError.storage "failed")), st) else r.linksSave t st
  linksUpdate t st :=
    if bad (Op.linksUpdate t) then (some (GoError.storage "failed"), st) else r.linksUpdate t st
  linksFindOne id st :=
    if bad (Op.linksFindOne id) then (({}, some (GoError.storage "failed")), st)
    else r.linksFindOne id st
  linksFindAllNonMapped ids st :=
    if bad (Op.linksFindAllNonMapped ids) then (([], some (GoError.storage "failed")), st)
    else r.linksFindAllNonMapped ids st
  clustersSave x st :=
    if bad (Op.clustersSave x) then (some (GoError.storage "failed"), st) else r.clustersSave x st
  clustersUpdate x st :=
    if bad (Op.clustersUpdate x) then (some (GoError.storage "failed"), st)
    else r.clustersUpdate x st
  clustersFindAllActive st :=
    if bad Op.clustersFindAllActive then (([], some (GoError.storage "failed")), st)
    else r.clustersFindAllActive st
  clustersFindAllActiveByClusterId c st :=
    if bad (Op.clustersFindAllActiveByClusterId c) then (([], some (GoError.storage "failed")), st)
    else r.clustersFindAllActiveByClusterId c st
  clustersFindAllClusters id st :=
    if bad (Op.clustersFindAllClusters id) then (([], some (GoError.storage "failed")), st)
    else r.clustersFindAllClusters id st

/-- The map iteration order that visits the entries in insertion order. -/
def insertionOrder : MapOrder where
  iter _ m := m
  perm _ m := List.Perm.refl m

/-- The map iteration order that visits the entries in reverse insertion order. -/
def reverseOrder : MapOrder where
  iter _ m := m.reverse
  perm _ m := List.reverse_perm m

/-! ## Concrete stores and requests -/

/-- A store with three links: link 1 is active on clusters 1 and 2 and has an
inactive association with cluster 3, link 2 is active on cluster 1, link 3
has no association. -/
def sampleStore : Store :=
  { links :=
      [{ Id := 1, Name := "grafana", Url := "https://grafana.local", Active := true,
         ExternalLinksMonitoringToolId := 1 },
       { Id := 2, Name := "kibana", Url := "https://kibana.local", Active := true,
         ExternalLinksMonitoringToolId := 2 },
       { Id := 3, Name := "wiki", Url := "https://wiki.local", Active := true,
         ExternalLinksMonitoringToolId := 3 }],
    clusters :=
      [{ ExternalLinksId := 1, ClusterId := 1, Active := true },
       { ExternalLinksId := 2, ClusterId := 1, Active := true },
       { ExternalLinksId := 1, ClusterId := 2, Active := true },
       { ExternalLinksId := 1, ClusterId := 3, Active := false }] }

/-- The joined link 1 of `sampleStore`. -/
def sampleLink1 : ExternalLinks :=
  { Id := 1, Name := "grafana", Url := "https://grafana.local", Active := true,
    ExternalLinksMonitoringToolId := 1 }

/-- The joined link 2 of `sampleStore`. -/
def sampleLink2 : ExternalLinks :=
  { Id := 2, Name := "kibana", Url := "https://kibana.local", Active := true,
    ExternalLinksMonitoringToolId := 2 }

/-- The link 3 of `sampleStore`. -/
def sampleLink3 : ExternalLinks :=
  { Id := 3, Name := "wiki", Url := "https://wiki.local", Active := true,
    ExternalLinksMonitoringToolId := 3 }

/-- The active association rows of `sampleStore`, as `FindAllActive` returns them. -/
def sampleActiveRows : List ExternalLinksClusters :=
  [{ ExternalLinksId := 1, ClusterId := 1, Active := true, ExternalLinks := sampleLink1 },
   { ExternalLinksId := 2, ClusterId := 1, Active := true, ExternalLinks := sampleLink2 },
   { ExternalLinksId := 1, ClusterId := 2, Active := true, ExternalLinks := sampleLink1 }]

/-- The active association rows of cluster 1 of `sampleStore`. -/
def sampleCluster1Rows : List ExternalLinksClusters :=
  [{ ExternalLinksId := 1, ClusterId := 1, Active := true, ExternalLinks := sampleLink1 },
   { ExternalLinksId := 2, ClusterId := 1, Active := true, ExternalLinks := sampleLink2 }]

/-- A store with link 7 associated with clusters 1, 2 and 3, the association
with cluster 2 inactive. -/
def updateStore : Store :=
  { links := [{ Id := 7, Name := "grafana", Url := "https://grafana.local", Active := true }],
    clusters :=
      [{ ExternalLinksId := 7, ClusterId := 1, Active := true },
       { ExternalLinksId := 7, ClusterId := 2, Active := false },
       { ExternalLinksId := 7, ClusterId := 3, Active := true }] }

/-- An update of link 7 that asks for clusters 2 and 4. -/
def updateRequest : ExternalLinkoutRequest :=
  { Id := 7, Name := "grafana", Url := "https://grafana.local", Active := true,
    ClusterIds := [2, 4] }

/-- A store with link 1 and no association. -/
def oneLinkStore : Store :=
  { links := [{ Id := 1, Name := "grafana", Url := "https://grafana.local", Active := true }] }

/-- An update of link 1 whose cluster id list repeats cluster 4. -/
def repeatedRequest : ExternalLinkoutRequest :=
  { Id := 1, Name := "grafana", Url := "https://grafana.local", Active := true,
    ClusterIds := [4, 4] }

/-- A create request for one link on cluster 1. -/
def createRequest : ExternalLinkoutRequest :=
  { Name := "grafana", Url := "https://grafana.local", MonitoringToolId := 1, ClusterIds := [1] }

/-- Three create requests: the first on clusters 1 and 3, the second on
clusters 1, 2 and 3, the third on cluster 1. -/
def createRequests : List ExternalLinkoutRequest :=
  [{ Name := "grafana", Url := "https://grafana.local", ClusterIds := [1, 3] },
   { Name := "kibana", Url := "https://kibana.local", ClusterIds := [1, 2, 3] },
   { Name := "wiki", Url := "https://wiki.local", ClusterIds := [1] }]

/-- The first request of `createRequests`. -/
def createRequestGrafana : ExternalLinkoutRequest :=
  { Name := "grafana", Url := "https://grafana.local", ClusterIds := [1, 3] }

/-- The second request of `createRequests`. -/
def createRequestKibana : ExternalLinkoutRequest :=
  { Name := "kibana", Url := "https://kibana.local", ClusterIds := [1, 2, 3] }

/-- The third request of `createRequests`. -/
def createRequestWiki : ExternalLinkoutRequest :=
  { Name := "wiki", Url := "https://wiki.local", ClusterIds := [1] }

/-- The storage behaviour in which every `Save` of an association with
cluster 2 fails. -/
def failOnCluster2 : Repos Store :=
  failing (fun op =>
    match op with
    | Op.clustersSave x => decide (x.ClusterId = 2)
    | _ => false) storeRepos

/-- The storage behaviour in which `FindAllClusters` and every `Update` of an
association fail, `FindAllClusters` returning no cluster id. -/
def failOnAssociations : Repos Store :=
  failing (fun op =>
    match op with
    | Op.clustersFindAllClusters _ => true
    | Op.clustersUpdate _ => true
    | _ => false) storeRepos

/-- The storage behaviour in which every `Update` of an association fails. -/
def failOnAssociationUpdate : Repos Store :=
  failing (fun op =>
    match op with
    | Op.clustersUpdate _ => true
    | _ => false) storeRepos

/-- The storage behaviour in which every `Update` of a link fails. -/
def failOnLinkUpdate : Repos Store :=
  failing (fun op =>
    match op with
    | Op.linksUpdate _ => true
    | _ => false) storeRepos

/-- The storage behaviour in which `FindAllActive` fails and every other call
succeeds. -/
def failOnFindAllActive : Repos Store :=
  failing (fun op =>
    match op with
    | Op.clustersFindAllActive => true
    | _ => false) storeRepos

end ExternalLinkout

namespace User

open ExternalLinkout (GoError)

/-! ## Self-registration roles service -/

/-- Entry type `repository.SelfRegistrationRoles` of the role catalog, with
the field the service reads. -/
structure SelfRegistrationRoles where
  Role : String := ""
  deriving DecidableEq

/-- The user-creation request `bean.UserInfo`, with the fields the service
sets. -/
structure UserInfo where
  EmailId : String := ""
  Roles : List String := []
  deriving DecidableEq

/-- `SelfRegistrationRolesServiceImpl` over a state `σ` of the collaborators:
the catalog fetch `selfRegistrationRolesRepository.GetAll` and the interface
value `userService` with its method `CreateUser`, `none` for a nil interface
value. -/
structure SelfRegistrationRolesServiceImpl (σ : Type) where
  selfRegistrationRolesRepository :
    σ → (Option (List SelfRegistrationRoles) × Option GoError) × σ
  userService : Option (UserInfo → σ → Option GoError × σ)

/-- `NewSelfRegistrationRolesServiceImpl`: the struct literal sets the logger
and the repository; `userService` is omitted and takes the zero value nil. -/
def NewSelfRegistrationRolesServiceImpl {σ : Type}
    (selfRegistrationRolesRepository :
      σ → (Option (List SelfRegistrationRoles) × Option GoError) × σ) :
    SelfRegistrationRolesServiceImpl σ :=
  { selfRegistrationRolesRepository := selfRegistrationRolesRepository,
    userService := none }

/-- Lines 35-40 of `GetAll`: the non-empty role strings, appended in order. -/
def collectRoles (roleEntries : List SelfRegistrationRoles) : List String :=
  roleEntries.foldl (fun roles role => if role.Role ≠ "" then roles ++ [role.Role] else roles) []

/-- `SelfRegistrationRolesServiceImpl.GetAll`. -/
def GetAll {σ : Type} (impl : SelfRegistrationRolesServiceImpl σ) (s : σ) :
    (List String × Option GoError) × σ :=
  match impl.selfRegistrationRolesRepository s with
  | ((_, some err), s1) => (([], some err), s1)
  | ((roleEntries, none), s1) => ((collectRoles (roleEntries.getD []), none), s1)

/-- Lines 51-56 of `Check`: the search for a non-empty role string. -/
def checkLoop : List SelfRegistrationRoles → Bool
  | [] => false
  | role :: rest => if role.Role ≠ "" then true else checkLoop rest

/-- `SelfRegistrationRolesServiceImpl.Check`. -/
def Check {σ : Type} (impl : SelfRegistrationRolesServiceImpl σ) (s : σ) :
    (Bool × Option GoError) × σ :=
  match impl.selfRegistrationRolesRepository s with
  | ((_, some err), s1) => ((false, some err), s1)
  | ((some roleEntries, none), s1) => ((checkLoop roleEntries, none), s1)
  | ((none, none), s1) => ((false, none), s1)

/-- How a call without return value ends: it returns, or the Go runtime
panics on a method call through a nil interface value. -/
inductive Completion where
  | returned
  | nilPointerPanic
  deriving DecidableEq

/-- `SelfRegistrationRolesServiceImpl.SelfRegister`. -/
def SelfRegister {σ : Type} (impl : SelfRegistrationRolesServiceImpl σ) (emailId : String)
    (s : σ) : Completion × σ :=
  match GetAll impl s with
  | ((_, some _), s1) => (Completion.returned, s1)
  | ((roles, none), s1) =>
    if roles.length = 0 then (Completion.returned, s1)
    else
      let userInfo : UserInfo := { EmailId := emailId, Roles := roles }
      match impl.userService with
      | none => (Completion.nilPointerPanic, s1)
      | some createUser => (Completion.returned, (createUser userInfo s1).2)

/-- The same service, recording every `CreateUser` request in order next to
the state. -/
def recording {σ : Type} (impl : SelfRegistrationRolesServiceImpl σ) :
    SelfRegistrationRolesServiceImpl (σ × List UserInfo) where
  selfRegistrationRolesRepository st :=
    let res := impl.selfRegistrationRolesRepository st.1
    (res.1, (res.2, st.2))
  userService :=
    impl.userService.map (fun createUser userInfo st =>
      let res := createUser userInfo st.1
      (res.1, (res.2, st.2 ++ [userInfo])))

/-- A role catalog with an empty entry and the role `admin`; the state counts
nothing. -/
def adminCatalog : Unit → (Option (List SelfRegistrationRoles) × Option GoError) × Unit :=
  fun u => ((some [{ Role := "" }, { Role := "admin" }], none), u)

/-- A user-provisioning collaborator whose `CreateUser` always succeeds. -/
def acceptingUserService : UserInfo → Unit → Option GoError × Unit :=
  fun _ u => (none, u)

end User

namespace ExternalLinkout

@[simp] theorem logged_linksSave {σ : Type} (r : Repos σ) (t : ExternalLinks) (st : σ × List Call) :
    (logged r).linksSave t st =
      ((r.linksSave t st.1).1,
        ((r.linksSave t st.1).2, st.2 ++ [⟨Op.linksSave t, (r.linksSave t st.1).1.2⟩])) := rfl

@[simp] theorem logged_linksUpdate {σ : Type} (r : Repos σ) (t : ExternalLinks) (st : σ × List Call) :
    (logged r).linksUpdate t st =
      ((r.linksUpdate t st.1).1,
        ((r.linksUpdate t st.1).2, st.2 ++ [⟨Op.linksUpdate t, (r.linksUpdate t st.1).1⟩])) := rfl

@[simp] theorem logged_linksFindOne {σ : Type} (r : Repos σ) (id : Int) (st : σ × List Call) :
    (logged r).linksFindOne id st =
      ((r.linksFindOne id st.1).1,
        ((r.linksFindOne id st.1).2, st.2 ++ [⟨Op.linksFindOne id, (r.linksFindOne id st.1).1.2⟩])) :=
  rfl

@[simp] theorem logged_linksFindAllNonMapped {σ : Type} (r : Repos σ) (ids : List Int)
    (st : σ × List Call) :
    (logged r).linksFindAllNonMapped ids st =
      ((r.linksFindAllNonMapped ids st.1).1,
        ((r.linksFindAllNonMapped ids st.1).2,
          st.2 ++ [⟨Op.linksFindAllNonMapped ids, (r.linksFindAllNonMapped ids st.1).1.2⟩])) := rfl

@[simp] theorem logged_clustersSave {σ : Type} (r : Repos σ) (x : ExternalLinksClusters)
    (st : σ × List Call) :
    (logged r).clustersSave x st =
      ((r.clustersSave x st.1).1,
        ((r.clustersSave x st.1).2, st.2 ++ [⟨Op.clustersSave x, (r.clustersSave x st.1).1⟩])) := rfl

@[simp] theorem logged_clustersUpdate {σ : Type} (r : Repos σ) (x : ExternalLinksClusters)
    (st : σ × List Call) :
    (logged r).clustersUpdate x st =
      ((r.clustersUpdate x st.1).1,
        ((r.clustersUpdate x st.1).2, st.2 ++ [⟨Op.clustersUpdate x, (r.clustersUpdate x st.1).1⟩])) :=
  rfl

@[simp] theorem logged_clustersFindAllActive {σ : Type} (r : Repos σ) (st : σ × List Call) :
    (logged r).clustersFindAllActive st =
      ((r.clustersFindAllActive st.1).1,
        ((r.clustersFindAllActive st.1).2,
          st.2 ++ [⟨Op.clustersFindAllActive, (r.clustersFindAllActive st.1).1.2⟩])) := rfl

@[simp] theorem logged_clustersFindAllActiveByClusterId {σ : Type} (r : Repos σ) (c : Int)
    (st : σ × List Call) :
    (logged r).clustersFindAllActiveByClusterId c st =
      ((r.clustersFindAllActiveByClusterId c st.1).1,
        ((r.clustersFindAllActiveByClusterId c st.1).2,
          st.2 ++ [⟨Op.clustersFindAllActiveByClusterId c,
            (r.clustersFindAllActiveByClusterId c st.1).1.2⟩])) := rfl

@[simp] theorem logged_clustersFindAllClusters {σ : Type} (r : Repos σ) (id : Int)
    (st : σ × List Call) :
    (logged r).clustersFindAllClusters id st =
      ((r.clustersFindAllClusters id st.1).1,
        ((r.clustersFindAllClusters id st.1).2,
          st.2 ++ [⟨Op.clustersFindAllClusters id, (r.clustersFindAllClusters id st.1).1.2⟩])) := rfl

theorem stopsAtFirstError_cons {c : Call} {calls : List Call} {res : Option GoError}
    (hc : c.err = none) (h : StopsAtFirstError calls res) :
    StopsAtFirstError (c :: calls) res := by
  rcases h with ⟨h1, h2⟩ | ⟨h1, pre, last, h2, h3, h4⟩
  · left
    refine ⟨h1, ?_⟩
    intro d hd
    rcases List.mem_cons.1 hd with rfl | hd
    · exact hc
    · exact h2 d hd
  · right
    refine ⟨h1, c :: pre, last, by simp [h2], h3, ?_⟩
    intro d hd
    rcases List.mem_cons.1 hd with rfl | hd
    · exact hc
    · exact h4 d hd

theorem stopsAtFirstError_append {pre calls : List Call} {res : Option GoError}
    (hpre : ∀ c ∈ pre, c.err = none) (h : StopsAtFirstError calls res) :
    StopsAtFirstError (pre ++ calls) res := by
  induction pre with
  | nil => simpa using h
  | cons c pre ih =>
    have h1 : ∀ d ∈ pre, d.err = none := fun d hd => hpre d (List.mem_cons_of_mem _ hd)
    simpa using stopsAtFirstError_cons (hpre c (List.mem_cons_self _ _)) (ih h1)

theorem replay_append {σ : Type} (r : Repos σ) (a b : List Call) (s : σ) :
    replay r (a ++ b) s = replay r b (replay r a s) := by
  simp [replay, List.foldl_append]


theorem createClusters_logged {σ : Type} (r : Repos σ) (t : ExternalLinks) (cs : List Int) :
    ∀ (s : σ) (log : List Call), ∃ calls : List Call,
      (createClusters (logged r) t cs (s, log)).2 = (replay r calls s, log ++ calls) ∧
      (∀ c ∈ calls, ∃ clusterId, c.op = Op.clustersSave (newMapping t clusterId)) ∧
      StopsAtFirstError calls (createClusters (logged r) t cs (s, log)).1 ∧
      ((createClusters (logged r) t cs (s, log)).1 = none → calls.length = cs.length) := by
  induction cs with
  | nil =>
    intro s log
    exact ⟨[], by simp [createClusters, replay], by simp,
      Or.inl ⟨by simp [createClusters], by simp⟩, fun _ => rfl⟩
  | cons c cs ih =>
    intro s log
    cases h : r.clustersSave (newMapping t c) s with
    | mk e s1 =>
      cases e with
      | some e =>
        refine ⟨[⟨Op.clustersSave (newMapping t c), some e⟩], ?_, ?_, ?_, ?_⟩
        · simp [createClusters, h, replay, Repos.after]
        · simp
        · right
          refine ⟨by simp [createClusters, h], [], _, rfl, by simp, by simp⟩
        · simp [createClusters, h]
      | none =>
        obtain ⟨calls, h1, h2, h3, h4⟩ :=
          ih s1 (log ++ [⟨Op.clustersSave (newMapping t c), none⟩])
        have hstep : createClusters (logged r) t (c :: cs) (s, log) =
            createClusters (logged r) t cs
              (s1, log ++ [⟨Op.clustersSave (newMapping t c), none⟩]) := by
          simp [createClusters, h]
        refine ⟨⟨Op.clustersSave (newMapping t c), none⟩ :: calls, ?_, ?_, ?_, ?_⟩
        · rw [hstep, h1]
          simp [replay, Repos.after, h]
        · intro d hd
          rcases List.mem_cons.1 hd with rfl | hd
          · exact ⟨c, rfl⟩
          · exact h2 d hd
        · rw [hstep]
          exact stopsAtFirstError_cons rfl h3
        · rw [hstep]
          intro hnone
          simp [h4 hnone]

theorem createLoop_logged {σ : Type} (r : Repos σ) (requests : List ExternalLinkoutRequest) :
    ∀ (s : σ) (log : List Call), ∃ calls : List Call,
      (createLoop (logged r) requests (s, log)).2 = (replay r calls s, log ++ calls) ∧
      (∀ c ∈ calls, (∃ request ∈ requests, c.op = Op.linksSave (newLink request)) ∨
        ∃ t clusterId, c.op = Op.clustersSave (newMapping t clusterId)) ∧
      StopsAtFirstError calls (createLoop (logged r) requests (s, log)).1 ∧
      ((createLoop (logged r) requests (s, log)).1 = none →
        calls.countP (fun c => c.op.isLinksSave) = requests.length ∧
        calls.countP (fun c => c.op.isClustersSave) =
          (requests.map (fun request => request.ClusterIds.length)).sum) := by
  induction requests with
  | nil =>
    intro s log
    exact ⟨[], by simp [createLoop, replay], by simp,
      Or.inl ⟨by simp [createLoop], by simp⟩, fun _ => by simp⟩
  | cons request rest ih =>
    intro s log
    cases h : r.linksSave (newLink request) s with
    | mk res s1 =>
      obtain ⟨t1, e⟩ := res
      cases e with
      | some e =>
        refine ⟨[⟨Op.linksSave (newLink request), some e⟩], ?_, ?_, ?_, ?_⟩
        · simp [createLoop, h, replay, Repos.after]
        · simp
        · right
          refine ⟨by simp [createLoop, h], [], _, rfl, by simp, by simp⟩
        · simp [createLoop, h]
      | none =>
        obtain ⟨calls1, h1, h2, h3, h4⟩ :=
          createClusters_logged r t1 request.ClusterIds s1
            (log ++ [⟨Op.linksSave (newLink request), none⟩])
        have hcount1 : calls1.countP (fun c => c.op.isLinksSave) = 0 := by
          rw [List.countP_eq_zero]
          intro c hc
          obtain ⟨cid, hop⟩ := h2 c hc
          simp [hop, Op.isLinksSave]
        have hcount2 : calls1.countP (fun c => c.op.isClustersSave) = calls1.length := by
          rw [List.countP_eq_length]
          intro c hc
          obtain ⟨cid, hop⟩ := h2 c hc
          simp [hop, Op.isClustersSave]
        cases hc : createClusters (logged r) t1 request.ClusterIds
            (s1, log ++ [⟨Op.linksSave (newLink request), none⟩]) with
        | mk e2 st2 =>
          rw [hc] at h1 h3 h4
          simp only at h1 h3 h4
          subst h1
          have hfirst : r.after (Op.linksSave (newLink request)) s = s1 := by
            simp [Repos.after, h]
          have hmem1 : ∀ c ∈ calls1,
              (∃ q ∈ request :: rest, c.op = Op.linksSave (newLink q)) ∨
              ∃ t clusterId, c.op = Op.clustersSave (newMapping t clusterId) := by
            intro c hc1
            obtain ⟨cid, hop⟩ := h2 c hc1
            exact Or.inr ⟨t1, cid, hop⟩
          cases e2 with
          | some e2 =>
            have hres : (createLoop (logged r) (request :: rest) (s, log)).1 = some e2 := by
              simp [createLoop, h, hc]
            refine ⟨⟨Op.linksSave (newLink request), none⟩ :: calls1, ?_, ?_, ?_, ?_⟩
            · simp [createLoop, h, hc, replay, hfirst]
            · intro d hd
              rcases List.mem_cons.1 hd with rfl | hd
              · exact Or.inl ⟨request, by simp, rfl⟩
              · exact hmem1 d hd
            · rw [hres]
              exact stopsAtFirstError_cons rfl h3
            · rw [hres]
              intro hnone
              cases hnone
          | none =>
            obtain ⟨calls2, k1, k2, k3, k4⟩ :=
              ih (replay r calls1 s1) (log ++ [⟨Op.linksSave (newLink request), none⟩] ++ calls1)
            have hstep : createLoop (logged r) (request :: rest) (s, log) =
                createLoop (logged r) rest
                  (replay r calls1 s1,
                    log ++ [⟨Op.linksSave (newLink request), none⟩] ++ calls1) := by
              simp [createLoop, h, hc]
            refine ⟨⟨Op.linksSave (newLink request), none⟩ :: (calls1 ++ calls2), ?_, ?_, ?_, ?_⟩
            · rw [hstep, k1]
              simp [replay, hfirst, List.foldl_append]
            · intro d hd
              rcases List.mem_cons.1 hd with rfl | hd
              · exact Or.inl ⟨request, by simp, rfl⟩
              · rcases List.mem_append.1 hd with hd | hd
                · exact hmem1 d hd
                · rcases k2 d hd with ⟨q, hq, hop⟩ | hop
                  · exact Or.inl ⟨q, List.mem_cons_of_mem _ hq, hop⟩
                  · exact Or.inr hop
            · rw [hstep]
              have hnone : ∀ c ∈ calls1, c.err = none := by
                rcases h3 with ⟨_, h3⟩ | ⟨h3, _⟩
                · exact h3
                · exact absurd rfl h3
              exact stopsAtFirstError_cons rfl (stopsAtFirstError_append hnone k3)
            · rw [hstep]
              intro hnone
              obtain ⟨k5, k6⟩ := k4 hnone
              constructor
              · rw [List.countP_cons, List.countP_append, hcount1, k5]
                simp [Op.isLinksSave]
              · rw [List.countP_cons, List.countP_append, hcount2, k6, h4 rfl]
                simp [Op.isClustersSave]


theorem Create_run {σ : Type} (r : Repos σ) (requests : List ExternalLinkoutRequest) (s : σ) :
    ∃ calls : List Call,
      (Create (logged r) requests (s, [])).2 = (replay r calls s, calls) ∧
      (Create (logged r) requests (s, [])).1.2 = (createLoop (logged r) requests (s, [])).1 ∧
      ((Create (logged r) requests (s, [])).1.2 = none →
        (Create (logged r) requests (s, [])).1.1 = requests) ∧
      ((Create (logged r) requests (s, [])).1.2 ≠ none →
        (Create (logged r) requests (s, [])).1.1 = []) ∧
      (∀ c ∈ calls, (∃ request ∈ requests, c.op = Op.linksSave (newLink request)) ∨
        ∃ t clusterId, c.op = Op.clustersSave (newMapping t clusterId)) ∧
      StopsAtFirstError calls (createLoop (logged r) requests (s, [])).1 ∧
      ((createLoop (logged r) requests (s, [])).1 = none →
        calls.countP (fun c => c.op.isLinksSave) = requests.length ∧
        calls.countP (fun c => c.op.isClustersSave) =
          (requests.map (fun request => request.ClusterIds.length)).sum) := by
  obtain ⟨calls, h1, h2, h3, h4⟩ := createLoop_logged r requests s []
  refine ⟨calls, ?_, ?_, ?_, ?_, h2, h3, h4⟩
  · cases hc : createLoop (logged r) requests (s, []) with
    | mk e st =>
      rw [hc] at h1
      simp only [List.nil_append] at h1
      cases e <;> simp [Create, hc, h1]
  · cases hc : createLoop (logged r) requests (s, []) with
    | mk e st => cases e <;> simp [Create, hc]
  · cases hc : createLoop (logged r) requests (s, []) with
    | mk e st => cases e <;> simp [Create, hc]
  · cases hc : createLoop (logged r) requests (s, []) with
    | mk e st => cases e <;> simp [Create, hc]

/-- The rows that `Create` saves, under every storage behaviour: every link row passed to
`Save` has `Active = true` and every association row passed to `Save` has `Active = false`;
when `Create` returns a nil error it has made one link `Save` per request and one association
`Save` per cluster id of each request. -/
theorem Create_saved_rows {σ : Type} (r : Repos σ) (requests : List ExternalLinkoutRequest)
    (s : σ) :
    (∀ c ∈ (Create (logged r) requests (s, [])).2.2, ∀ t, c.op = Op.linksSave t →
      t.Active = true) ∧
    (∀ c ∈ (Create (logged r) requests (s, [])).2.2, ∀ x, c.op = Op.clustersSave x →
      x.Active = false) ∧
    ((Create (logged r) requests (s, [])).1.2 = none →
      (Create (logged r) requests (s, [])).2.2.countP (fun c => c.op.isLinksSave) =
        requests.length ∧
      (Create (logged r) requests (s, [])).2.2.countP (fun c => c.op.isClustersSave) =
        (requests.map (fun request => request.ClusterIds.length)).sum) := by
  obtain ⟨calls, h1, h2, _, _, h5, _, h7⟩ := Create_run r requests s
  rw [h1, h2]
  refine ⟨?_, ?_, h7⟩
  · intro c hc t hop
    rcases h5 c hc with ⟨q, _, hq⟩ | ⟨t1, cid, hq⟩
    · rw [hop] at hq
      cases hq
      rfl
    · rw [hop] at hq
      cases hq
  · intro c hc x hop
    rcases h5 c hc with ⟨q, _, hq⟩ | ⟨t1, cid, hq⟩
    · rw [hop] at hq
      cases hq
    · rw [hop] at hq
      cases hq
      rfl

/-- `Create` under every storage behaviour, read off its recorded calls alone: every
repository call it makes is a `Save`,
and the storage state it leaves is the state after exactly these calls; when no call fails it
returns the input list and a nil error; when a call fails it returns a nil list and a non-nil
error, the failing call is the last call made, and no earlier call failed. -/
theorem Create_recorded_calls {σ : Type} (r : Repos σ)
    (requests : List ExternalLinkoutRequest) (s : σ) :
    (∀ c ∈ (Create (logged r) requests (s, [])).2.2, c.op.isSave = true) ∧
    (Create (logged r) requests (s, [])).2.1 =
      replay r (Create (logged r) requests (s, [])).2.2 s ∧
    ((∀ c ∈ (Create (logged r) requests (s, [])).2.2, c.err = none) →
      (Create (logged r) requests (s, [])).1 = (requests, none)) ∧
    ((∃ c ∈ (Create (logged r) requests (s, [])).2.2, c.err ≠ none) →
      (Create (logged r) requests (s, [])).1.1 = [] ∧
      (Create (logged r) requests (s, [])).1.2 ≠ none ∧
      ∃ pre last, (Create (logged r) requests (s, [])).2.2 = pre ++ [last] ∧
        last.err ≠ none ∧ ∀ c ∈ pre, c.err = none) := by
  obtain ⟨calls, h1, h2, h3, h4, h5, h6, _⟩ := Create_run r requests s
  rw [← h2] at h6
  rw [h1]
  refine ⟨?_, rfl, ?_, ?_⟩
  · intro c hc
    rcases h5 c hc with ⟨q, _, hq⟩ | ⟨t1, cid, hq⟩ <;> simp [hq, Op.isSave]
  · intro hall
    rcases h6 with ⟨h6, _⟩ | ⟨_, pre, last, h7, h8, _⟩
    · exact Prod.ext (h3 h6) h6
    · exact absurd (hall last (by simp [h7])) h8
  · rintro ⟨c, hc1, hc2⟩
    rcases h6 with ⟨_, h6⟩ | ⟨h6, h7⟩
    · exact absurd (h6 c hc1) hc2
    · exact ⟨h4 h6, h6, h7⟩


theorem throughFirstError_of_ok (l : List Call) (h : ∀ c ∈ l, c.err = none) :
    throughFirstError l = l := by
  induction l with
  | nil => rfl
  | cons c l ih =>
    have hc : c.err = none := h c (List.mem_cons_self _ _)
    have hl : ∀ d ∈ l, d.err = none := fun d hd => h d (List.mem_cons_of_mem _ hd)
    simp [throughFirstError, hc, ih hl]

theorem throughFirstError_append_ok (a b : List Call) (h : ∀ c ∈ a, c.err = none) :
    throughFirstError (a ++ b) = a ++ throughFirstError b := by
  induction a with
  | nil => rfl
  | cons c a ih =>
    have hc : c.err = none := h c (List.mem_cons_self _ _)
    have ha : ∀ d ∈ a, d.err = none := fun d hd => h d (List.mem_cons_of_mem _ hd)
    simp [throughFirstError, hc, ih ha]

theorem throughFirstError_append_fail (a b : List Call) (h : ∃ c ∈ a, c.err ≠ none) :
    throughFirstError (a ++ b) = throughFirstError a := by
  induction a with
  | nil => simp at h
  | cons c a ih =>
    by_cases hc : c.err = none
    · have ha : ∃ d ∈ a, d.err ≠ none := by
        obtain ⟨d, hd, hne⟩ := h
        rcases List.mem_cons.1 hd with rfl | hd
        · exact absurd hc hne
        · exact ⟨d, hd, hne⟩
      simp [throughFirstError, hc, ih ha]
    · simp [throughFirstError, hc]

theorem createError_eq_none (l : List Call) :
    createError l = none ↔ ∀ c ∈ l, c.err = none := by
  induction l with
  | nil => simp [createError]
  | cons c l ih =>
    by_cases hc : c.err = none
    · simp [createError, hc, ih]
    · by_cases hop : c.op.isLinksSave = true
      · simp [createError, hc, hop]
      · simp [createError, hc, hop]

theorem createError_append_ok (a b : List Call) (h : ∀ c ∈ a, c.err = none) :
    createError (a ++ b) = createError b := by
  induction a with
  | nil => rfl
  | cons c a ih =>
    have hc : c.err = none := h c (List.mem_cons_self _ _)
    have ha : ∀ d ∈ a, d.err = none := fun d hd => h d (List.mem_cons_of_mem _ hd)
    simp [createError, hc, ih ha]

theorem createError_append_fail (a b : List Call) (h : ∃ c ∈ a, c.err ≠ none) :
    createError (a ++ b) = createError a := by
  induction a with
  | nil => simp at h
  | cons c a ih =>
    by_cases hc : c.err = none
    · have ha : ∃ d ∈ a, d.err ≠ none := by
        obtain ⟨d, hd, hne⟩ := h
        rcases List.mem_cons.1 hd with rfl | hd
        · exact absurd hc hne
        · exact ⟨d, hd, hne⟩
      simp [createError, hc, ih ha]
    · simp [createError, hc]

theorem throughFirstError_stops (l : List Call) :
    StopsAtFirstError (throughFirstError l) (createError l) := by
  induction l with
  | nil => exact Or.inl ⟨rfl, by simp [throughFirstError]⟩
  | cons c l ih =>
    by_cases hc : c.err = none
    · have h1 : throughFirstError (c :: l) = c :: throughFirstError l := by
        simp [throughFirstError, hc]
      have h2 : createError (c :: l) = createError l := by simp [createError, hc]
      rw [h1, h2]
      exact stopsAtFirstError_cons hc ih
    · right
      refine ⟨?_, [], c, by simp [throughFirstError, hc], hc, by simp⟩
      by_cases hop : c.op.isLinksSave = true
      · simp [createError, hc, hop]
      · simp [createError, hc, hop]

theorem createClusters_run {σ : Type} (r : Repos σ) (t : ExternalLinks) (cs : List Int) :
    ∀ (s : σ) (log : List Call),
      createClusters (logged r) t cs (s, log) =
        (createError (saveAllClusters r t cs s),
          (replay r (throughFirstError (saveAllClusters r t cs s)) s,
            log ++ throughFirstError (saveAllClusters r t cs s))) := by
  induction cs with
  | nil =>
    intro s log
    simp [createClusters, saveAllClusters, createError, throughFirstError, replay]
  | cons c cs ih =>
    intro s log
    cases h : r.clustersSave (newMapping t c) s with
    | mk e s1 =>
      cases e with
      | some e =>
        simp [createClusters, saveAllClusters, createError, throughFirstError, replay, h,
          Repos.after, Op.isLinksSave]
      | none =>
        have hstep : createClusters (logged r) t (c :: cs) (s, log) =
            createClusters (logged r) t cs
              (s1, log ++ [⟨Op.clustersSave (newMapping t c), none⟩]) := by
          simp [createClusters, h]
        rw [hstep, ih]
        simp [saveAllClusters, createError, throughFirstError, replay, h, Repos.after]

theorem createLoop_run {σ : Type} (r : Repos σ) (requests : List ExternalLinkoutRequest) :
    ∀ (s : σ) (log : List Call),
      createLoop (logged r) requests (s, log) =
        (createError (saveAll r requests s),
          (replay r (throughFirstError (saveAll r requests s)) s,
            log ++ throughFirstError (saveAll r requests s))) := by
  induction requests with
  | nil =>
    intro s log
    simp [createLoop, saveAll, createError, throughFirstError, replay]
  | cons request rest ih =>
    intro s log
    cases h : r.linksSave (newLink request) s with
    | mk res s1 =>
      obtain ⟨t1, e⟩ := res
      cases e with
      | some e =>
        simp [createLoop, saveAll, createError, throughFirstError, replay, h, Repos.after,
          Op.isLinksSave]
      | none =>
        have hcl := createClusters_run r t1 request.ClusterIds s1
          (log ++ [⟨Op.linksSave (newLink request), none⟩])
        have hfirst : r.after (Op.linksSave (newLink request)) s = s1 := by
          simp [Repos.after, h]
        have hall : saveAll r (request :: rest) s =
            ⟨Op.linksSave (newLink request), none⟩ ::
              (saveAllClusters r t1 request.ClusterIds s1 ++
                saveAll r rest (replay r (saveAllClusters r t1 request.ClusterIds s1) s1)) := by
          simp [saveAll, h]
        by_cases hok : ∀ c ∈ saveAllClusters r t1 request.ClusterIds s1, c.err = none
        · have hnone := (createError_eq_none _).2 hok
          rw [hnone, throughFirstError_of_ok _ hok] at hcl
          have hstep : createLoop (logged r) (request :: rest) (s, log) =
              createLoop (logged r) rest
                (replay r (saveAllClusters r t1 request.ClusterIds s1) s1,
                  log ++ [⟨Op.linksSave (newLink request), none⟩] ++
                    saveAllClusters r t1 request.ClusterIds s1) := by
            simp [createLoop, h, hcl]
          rw [hstep, ih, hall]
          simp [createError, throughFirstError, createError_append_ok _ _ hok,
            throughFirstError_append_ok _ _ hok, replay, hfirst, List.foldl_append]
        · have hfail : ∃ c ∈ saveAllClusters r t1 request.ClusterIds s1, c.err ≠ none := by
            by_contra hcon
            apply hok
            intro c hc
            by_contra hne
            exact hcon ⟨c, hc, hne⟩
          have hsome : createError (saveAllClusters r t1 request.ClusterIds s1) ≠ none :=
            fun hn => hok ((createError_eq_none _).1 hn)
          obtain ⟨err, herr⟩ := Option.ne_none_iff_exists'.1 hsome
          rw [herr] at hcl
          rw [hall]
          simp [createLoop, h, hcl, createError, throughFirstError,
            createError_append_fail _ _ hfail, throughFirstError_append_fail _ _ hfail, herr,
            replay, hfirst]


theorem saveAllClusters_ops {σ : Type} (r : Repos σ) (t : ExternalLinks) (cs : List Int) :
    ∀ s : σ, (saveAllClusters r t cs s).map Call.op =
      cs.map (fun c => Op.clustersSave (newMapping t c)) := by
  induction cs with
  | nil => intro s; rfl
  | cons c cs ih =>
    intro s
    simp [saveAllClusters, ih]

theorem saveAll_single_ops {σ : Type} (r : Repos σ) (request : ExternalLinkoutRequest) (s : σ) :
    (saveAll r [request] s).map Call.op =
      Op.linksSave (newLink request) ::
        request.ClusterIds.map
          (fun c => Op.clustersSave (newMapping (r.linksSave (newLink request) s).1.1 c)) := by
  simp [saveAll, saveAllClusters_ops]

theorem saveAll_cons {σ : Type} (r : Repos σ) (request : ExternalLinkoutRequest)
    (rest : List ExternalLinkoutRequest) (s : σ) :
    saveAll r (request :: rest) s =
      saveAll r [request] s ++ saveAll r rest (replay r (saveAll r [request] s) s) := by
  simp [saveAll, replay, Repos.after, List.foldl_append]

theorem saveAll_length {σ : Type} (r : Repos σ) (requests : List ExternalLinkoutRequest) :
    ∀ s : σ, (saveAll r requests s).length =
      requests.length + (requests.map (fun request => request.ClusterIds.length)).sum := by
  induction requests with
  | nil => intro s; rfl
  | cons request rest ih =>
    intro s
    rw [saveAll_cons, List.length_append, ih]
    have h1 : (saveAll r [request] s).length = 1 + request.ClusterIds.length := by
      have := congrArg List.length (saveAll_single_ops r request s)
      simp only [List.length_map, List.length_cons] at this
      omega
    simp only [h1, List.length_cons, List.map_cons, List.sum_cons]
    omega

theorem saveAll_first_failure {σ : Type} (r : Repos σ) (requests : List ExternalLinkoutRequest) :
    ∀ s : σ, (∃ c ∈ saveAll r requests s, c.err ≠ none) →
      ∃ done request rest, requests = done ++ request :: rest ∧
        (∀ c ∈ saveAll r done s, c.err = none) ∧
        (∃ c ∈ saveAll r [request] (replay r (saveAll r done s) s), c.err ≠ none) ∧
        throughFirstError (saveAll r requests s) =
          saveAll r done s ++
            throughFirstError (saveAll r [request] (replay r (saveAll r done s) s)) := by
  induction requests with
  | nil =>
    intro s h
    simp [saveAll] at h
  | cons q rest ih =>
    intro s h
    by_cases hq : ∀ c ∈ saveAll r [q] s, c.err = none
    · rw [saveAll_cons] at h
      have hrest : ∃ c ∈ saveAll r rest (replay r (saveAll r [q] s) s), c.err ≠ none := by
        obtain ⟨c, hc, hne⟩ := h
        rcases List.mem_append.1 hc with hc | hc
        · exact absurd (hq c hc) hne
        · exact ⟨c, hc, hne⟩
      obtain ⟨done, request, rest2, h1, h2, h3, h4⟩ := ih _ hrest
      have hdone : saveAll r (q :: done) s =
          saveAll r [q] s ++ saveAll r done (replay r (saveAll r [q] s) s) := saveAll_cons r q done s
      have hstate : replay r (saveAll r (q :: done) s) s =
          replay r (saveAll r done (replay r (saveAll r [q] s) s))
            (replay r (saveAll r [q] s) s) := by
        rw [hdone, replay_append]
      refine ⟨q :: done, request, rest2, by simp [h1], ?_, ?_, ?_⟩
      · intro c hc
        rw [hdone] at hc
        rcases List.mem_append.1 hc with hc | hc
        · exact hq c hc
        · exact h2 c hc
      · rw [hstate]
        exact h3
      · rw [saveAll_cons r q rest s, throughFirstError_append_ok _ _ hq, h4, hstate, hdone,
          List.append_assoc]
    · have hfail : ∃ c ∈ saveAll r [q] s, c.err ≠ none := by
        by_contra hcon
        apply hq
        intro c hc
        by_contra hne
        exact hcon ⟨c, hc, hne⟩
      refine ⟨[], q, rest, rfl, by simp [saveAll], ?_, ?_⟩
      · simpa [saveAll, replay] using hfail
      · rw [saveAll_cons r q rest s, throughFirstError_append_fail _ _ hfail]
        simp [saveAll, replay]

/-- C2. `Create` under every storage behaviour, against the inserts the spec lists for the
requests (`saveAll`: per request the link `Save`, then one association `Save` per cluster id,
each with the error the repository returns at that point). The calls `Create` makes are these
inserts up to and including the first one that fails, and no call after it; the storage state
it leaves is the state after exactly these calls, nothing is undone; the returned error is nil
when no insert fails and otherwise the api error of the first failed insert. When no insert
fails, `Create` returns the input list and a nil error and has made every insert of every
request. When an insert fails, `Create` returns a nil list and a non-nil error, and the
requests split into the requests before the failing one, the failing one and the rest: all
inserts of the earlier requests were made and succeeded, the inserts of the failing request
were made up to and including the failing one, and nothing of the later requests was
processed. -/
theorem Create_stops_at_first_failing_save {σ : Type} (r : Repos σ)
    (requests : List ExternalLinkoutRequest) (s : σ) :
    (Create (logged r) requests (s, [])).2.2 = throughFirstError (saveAll r requests s) ∧
    (Create (logged r) requests (s, [])).2.1 =
      replay r (Create (logged r) requests (s, [])).2.2 s ∧
    (Create (logged r) requests (s, [])).1.2 = createError (saveAll r requests s) ∧
    (∀ (request : ExternalLinkoutRequest) (s1 : σ),
      (saveAll r [request] s1).map Call.op =
        Op.linksSave (newLink request) ::
          request.ClusterIds.map
            (fun c => Op.clustersSave (newMapping (r.linksSave (newLink request) s1).1.1 c))) ∧
    ((∀ c ∈ saveAll r requests s, c.err = none) →
      (Create (logged r) requests (s, [])).1 = (requests, none) ∧
      (Create (logged r) requests (s, [])).2.2 = saveAll r requests s ∧
      (Create (logged r) requests (s, [])).2.2.length =
        requests.length + (requests.map (fun request => request.ClusterIds.length)).sum) ∧
    ((∃ c ∈ saveAll r requests s, c.err ≠ none) →
      (Create (logged r) requests (s, [])).1.1 = [] ∧
      (Create (logged r) requests (s, [])).1.2 ≠ none ∧
      (∃ pre last, (Create (logged r) requests (s, [])).2.2 = pre ++ [last] ∧
        last.err ≠ none ∧ ∀ c ∈ pre, c.err = none) ∧
      ∃ done request rest, requests = done ++ request :: rest ∧
        (∀ c ∈ saveAll r done s, c.err = none) ∧
        (∃ c ∈ saveAll r [request] (replay r (saveAll r done s) s), c.err ≠ none) ∧
        (Create (logged r) requests (s, [])).2.2 =
          saveAll r done s ++
            throughFirstError (saveAll r [request] (replay r (saveAll r done s) s))) ∧
    (∀ c ∈ (Create (logged r) requests (s, [])).2.2, c.op.isSave = true) ∧
    ((∀ c ∈ (Create (logged r) requests (s, [])).2.2, c.err = none) →
      (Create (logged r) requests (s, [])).1 = (requests, none)) ∧
    ((∃ c ∈ (Create (logged r) requests (s, [])).2.2, c.err ≠ none) →
      (Create (logged r) requests (s, [])).1.1 = [] ∧
      (Create (logged r) requests (s, [])).1.2 ≠ none ∧
      ∃ pre last, (Create (logged r) requests (s, [])).2.2 = pre ++ [last] ∧
        last.err ≠ none ∧ ∀ c ∈ pre, c.err = none) := by
  have hloop := createLoop_run r requests s []
  obtain ⟨k1, k2, k3, k4⟩ := Create_recorded_calls r requests s
  have htrace : (Create (logged r) requests (s, [])).2.2 =
      throughFirstError (saveAll r requests s) := by
    cases he : createError (saveAll r requests s) <;> simp [Create, hloop, he]
  have herr : (Create (logged r) requests (s, [])).1.2 = createError (saveAll r requests s) := by
    cases he : createError (saveAll r requests s) <;> simp [Create, hloop, he]
  have hstop := throughFirstError_stops (saveAll r requests s)
  rw [← htrace, ← herr] at hstop
  refine ⟨htrace, k2, herr, fun request s1 => saveAll_single_ops r request s1, ?_, ?_, k1, k3, k4⟩
  · intro hok
    have hnone := (createError_eq_none _).2 hok
    have ht : (Create (logged r) requests (s, [])).2.2 = saveAll r requests s := by
      rw [htrace, throughFirstError_of_ok _ hok]
    refine ⟨?_, ht, ?_⟩
    · simp [Create, hloop, hnone]
    · rw [ht, saveAll_length]
  · intro hfail
    have hsome : createError (saveAll r requests s) ≠ none := by
      intro hn
      obtain ⟨c, hc, hne⟩ := hfail
      exact hne ((createError_eq_none _).1 hn c hc)
    obtain ⟨done, request, rest, h1, h2, h3, h4⟩ := saveAll_first_failure r requests s hfail
    refine ⟨?_, by rw [herr]; exact hsome, ?_, done, request, rest, h1, h2, h3, by rw [htrace, h4]⟩
    · obtain ⟨err, he⟩ := Option.ne_none_iff_exists'.1 hsome
      simp [Create, hloop, he]
    · rcases hstop with ⟨hn, _⟩ | ⟨_, hlast⟩
      · rw [herr] at hn
        exact absurd hn hsome
      · exact hlast


theorem mapStore_keys {α : Type} (m : List (Int × α)) (k : Int) (v : α) :
    (mapStore m k v).map Prod.fst =
      if k ∈ m.map Prod.fst then m.map Prod.fst else m.map Prod.fst ++ [k] := by
  induction m with
  | nil => simp [mapStore]
  | cons p m ih =>
    obtain ⟨k1, v1⟩ := p
    by_cases h : k1 = k
    · simp [mapStore, h]
    · have h2 : ¬ k = k1 := fun e => h e.symm
      by_cases hm : k ∈ m.map Prod.fst
      · simp only [mapStore, h, if_false, List.map_cons, ih, hm, if_true, List.mem_cons, or_true]
      · simp only [mapStore, h, if_false, List.map_cons, ih, hm, List.mem_cons, h2, or_self,
          List.cons_append]

theorem mapLoad_mapStore {α : Type} (m : List (Int × α)) (k : Int) (v : α) (j : Int) :
    mapLoad (mapStore m k v) j = if j = k then some v else mapLoad m j := by
  induction m with
  | nil =>
    by_cases h : j = k
    · simp [mapStore, mapLoad, h]
    · have h2 : ¬ k = j := fun e => h e.symm
      simp [mapStore, mapLoad, h, h2]
  | cons p m ih =>
    obtain ⟨k1, v1⟩ := p
    by_cases h : k1 = k
    · by_cases hj : j = k
      · simp [mapStore, mapLoad, h, hj]
      · have h2 : ¬ k = j := fun e => hj e.symm
        simp [mapStore, mapLoad, h, hj, h2]
    · by_cases hj : k1 = j
      · have h3 : ¬ j = k := fun e => h (hj.trans e)
        simp [mapStore, mapLoad, h, hj, h3]
      · simp [mapStore, mapLoad, h, hj, ih]

theorem mapLoad_eq_none {α : Type} (m : List (Int × α)) (k : Int) :
    mapLoad m k = none ↔ k ∉ m.map Prod.fst := by
  induction m with
  | nil => simp [mapLoad]
  | cons p m ih =>
    obtain ⟨k1, v1⟩ := p
    by_cases h : k1 = k
    · simp [mapLoad, h]
    · have h2 : ¬ k = k1 := fun e => h e.symm
      simp [mapLoad, h, h2, ih]

theorem mapLoad_of_mem {α : Type} (m : List (Int × α)) (hm : (m.map Prod.fst).Nodup)
    (k : Int) (v : α) (h : (k, v) ∈ m) : mapLoad m k = some v := by
  induction m with
  | nil => simp at h
  | cons p m ih =>
    obtain ⟨k1, v1⟩ := p
    simp only [List.map_cons, List.nodup_cons] at hm
    rcases List.mem_cons.1 h with h | h
    · cases h
      simp [mapLoad]
    · have hne : ¬ k1 = k := by
        intro e
        apply hm.1
        rw [e]
        exact List.mem_map_of_mem Prod.fst h
      simp [mapLoad, hne, ih hm.2 h]

theorem mem_of_mapLoad {α : Type} (m : List (Int × α)) (k : Int) (v : α)
    (h : mapLoad m k = some v) : (k, v) ∈ m := by
  induction m with
  | nil => simp [mapLoad] at h
  | cons p m ih =>
    obtain ⟨k1, v1⟩ := p
    by_cases hk : k1 = k
    · simp [mapLoad, hk] at h
      simp [hk, h]
    · simp [mapLoad, hk] at h
      exact List.mem_cons_of_mem _ (ih h)


theorem groupStep_eq (m : List (Int × ExternalLinkoutRequest)) (row : ExternalLinksClusters) :
    groupStep m row =
      match mapLoad m row.ExternalLinksId with
      | none => mapStore (mapStore m row.ExternalLinksId (linkResponse row)) row.ExternalLinksId
          { linkResponse row with ClusterIds := (linkResponse row).ClusterIds ++ [row.ClusterId] }
      | some v => mapStore m row.ExternalLinksId
          { v with ClusterIds := v.ClusterIds ++ [row.ClusterId] } := by
  cases h : mapLoad m row.ExternalLinksId with
  | none => simp [groupStep, h, mapLoad_mapStore]
  | some v => simp [groupStep, h]

theorem groupStep_keys (m : List (Int × ExternalLinkoutRequest)) (row : ExternalLinksClusters) :
    (groupStep m row).map Prod.fst =
      if row.ExternalLinksId ∈ m.map Prod.fst then m.map Prod.fst
      else m.map Prod.fst ++ [row.ExternalLinksId] := by
  rw [groupStep_eq]
  cases h : mapLoad m row.ExternalLinksId with
  | none =>
    have hk := (mapLoad_eq_none m row.ExternalLinksId).1 h
    simp only [mapStore_keys, hk, if_false, List.mem_append, List.mem_singleton, or_true, if_true]
  | some v =>
    have hk : row.ExternalLinksId ∈ m.map Prod.fst := by
      by_contra hk
      rw [(mapLoad_eq_none m row.ExternalLinksId).2 hk] at h
      cases h
    simp only [mapStore_keys, hk, if_true]

theorem groupStep_load (m : List (Int × ExternalLinkoutRequest)) (row : ExternalLinksClusters)
    (j : Int) :
    mapLoad (groupStep m row) j =
      if j = row.ExternalLinksId then
        some { (mapLoad m row.ExternalLinksId).getD (linkResponse row) with
          ClusterIds := ((mapLoad m row.ExternalLinksId).getD (linkResponse row)).ClusterIds ++
            [row.ClusterId] }
      else mapLoad m j := by
  rw [groupStep_eq]
  cases h : mapLoad m row.ExternalLinksId with
  | none =>
    by_cases hj : j = row.ExternalLinksId
    · simp [mapLoad_mapStore, hj]
    · simp [mapLoad_mapStore, hj]
  | some v =>
    by_cases hj : j = row.ExternalLinksId
    · simp [mapLoad_mapStore, hj]
    · simp [mapLoad_mapStore, hj]

theorem groupedResponse_append_other (rows : List ExternalLinksClusters)
    (row : ExternalLinksClusters) (j : Int) (hj : ¬ j = row.ExternalLinksId)
    (hmem : ∃ x ∈ rows, x.ExternalLinksId = j) :
    groupedResponse (rows ++ [row]) j = groupedResponse rows j := by
  obtain ⟨x, hx, hxj⟩ := hmem
  have hsome : (rows.find? (fun r => decide (r.ExternalLinksId = j))).isSome = true := by
    rw [List.find?_isSome]
    exact ⟨x, hx, by simp [hxj]⟩
  obtain ⟨y, hy⟩ := Option.isSome_iff_exists.1 hsome
  have hrow : ¬ row.ExternalLinksId = j := fun e => hj e.symm
  simp [groupedResponse, List.find?_append, hy, List.filter_append, hrow]

theorem groupedResponse_append_same_old (rows : List ExternalLinksClusters)
    (row : ExternalLinksClusters) (hmem : ∃ x ∈ rows, x.ExternalLinksId = row.ExternalLinksId) :
    groupedResponse (rows ++ [row]) row.ExternalLinksId =
      { groupedResponse rows row.ExternalLinksId with
        ClusterIds := (groupedResponse rows row.ExternalLinksId).ClusterIds ++ [row.ClusterId] } := by
  obtain ⟨x, hx, hxj⟩ := hmem
  have hsome : (rows.find? (fun r => decide (r.ExternalLinksId = row.ExternalLinksId))).isSome
      = true := by
    rw [List.find?_isSome]
    exact ⟨x, hx, by simp [hxj]⟩
  obtain ⟨y, hy⟩ := Option.isSome_iff_exists.1 hsome
  simp [groupedResponse, List.find?_append, hy, List.filter_append]

theorem groupedResponse_append_same_new (rows : List ExternalLinksClusters)
    (row : ExternalLinksClusters)
    (hmem : ¬ ∃ x ∈ rows, x.ExternalLinksId = row.ExternalLinksId) :
    groupedResponse (rows ++ [row]) row.ExternalLinksId =
      { linkResponse row with
        ClusterIds := (linkResponse row).ClusterIds ++ [row.ClusterId] } := by
  have hnone : rows.find? (fun r => decide (r.ExternalLinksId = row.ExternalLinksId)) = none := by
    rw [List.find?_eq_none]
    intro x hx hxe
    exact hmem ⟨x, hx, by simpa using hxe⟩
  have hfil : rows.filter (fun r => decide (r.ExternalLinksId = row.ExternalLinksId)) = [] := by
    rw [List.filter_eq_nil_iff]
    intro x hx hxe
    exact hmem ⟨x, hx, by simpa using hxe⟩
  simp [groupedResponse, List.find?_append, hnone, List.filter_append, hfil, linkResponse]


theorem groupFold_spec (rows : List ExternalLinksClusters) :
    ((rows.foldl groupStep []).map Prod.fst).Nodup ∧
    (∀ k, k ∈ (rows.foldl groupStep []).map Prod.fst ↔ ∃ row ∈ rows, row.ExternalLinksId = k) ∧
    (∀ k, k ∈ (rows.foldl groupStep []).map Prod.fst →
      mapLoad (rows.foldl groupStep []) k = some (groupedResponse rows k)) := by
  induction rows using List.reverseRecOn with
  | nil => simp
  | append_singleton rows row ih =>
    obtain ⟨ih1, ih2, ih3⟩ := ih
    rw [List.foldl_append, List.foldl_cons, List.foldl_nil]
    by_cases hk : row.ExternalLinksId ∈ (rows.foldl groupStep []).map Prod.fst
    · have hkeys := groupStep_keys (rows.foldl groupStep []) row
      rw [if_pos hk] at hkeys
      rw [hkeys]
      refine ⟨ih1, ?_, ?_⟩
      · intro k
        rw [ih2 k]
        constructor
        · rintro ⟨x, hx, hxk⟩
          exact ⟨x, List.mem_append_left _ hx, hxk⟩
        · rintro ⟨x, hx, hxk⟩
          rcases List.mem_append.1 hx with hx | hx
          · exact ⟨x, hx, hxk⟩
          · rw [List.mem_singleton] at hx
            subst hx
            rw [← hxk]
            exact (ih2 _).1 hk
      · intro k hkm
        rw [groupStep_load]
        by_cases hj : k = row.ExternalLinksId
        · subst hj
          rw [if_pos rfl, ih3 _ hk, groupedResponse_append_same_old rows row ((ih2 _).1 hk)]
          rfl
        · rw [if_neg hj, ih3 k hkm, groupedResponse_append_other rows row k hj ((ih2 k).1 hkm)]
    · have hkeys := groupStep_keys (rows.foldl groupStep []) row
      rw [if_neg hk] at hkeys
      rw [hkeys]
      have hnot : ¬ ∃ x ∈ rows, x.ExternalLinksId = row.ExternalLinksId :=
        fun h => hk ((ih2 _).2 h)
      refine ⟨?_, ?_, ?_⟩
      · rw [List.nodup_append]
        refine ⟨ih1, List.nodup_singleton _, ?_⟩
        intro a ha hb
        rw [List.mem_singleton] at hb
        subst hb
        exact hk ha
      · intro k
        rw [List.mem_append, ih2 k, List.mem_singleton]
        constructor
        · rintro (⟨x, hx, hxk⟩ | rfl)
          · exact ⟨x, List.mem_append_left _ hx, hxk⟩
          · exact ⟨row, by simp, rfl⟩
        · rintro ⟨x, hx, hxk⟩
          rcases List.mem_append.1 hx with hx | hx
          · exact Or.inl ⟨x, hx, hxk⟩
          · rw [List.mem_singleton] at hx
            subst hx
            exact Or.inr hxk.symm
      · intro k hkm
        rw [groupStep_load]
        by_cases hj : k = row.ExternalLinksId
        · subst hj
          rw [if_pos rfl, (mapLoad_eq_none _ _).2 hk,
            groupedResponse_append_same_new rows row hnot]
          rfl
        · rw [if_neg hj]
          rcases List.mem_append.1 hkm with hkm | hkm
          · rw [ih3 k hkm, groupedResponse_append_other rows row k hj ((ih2 k).1 hkm)]
          · rw [List.mem_singleton] at hkm
            exact absurd hkm hj

theorem idFold_spec (rows : List ExternalLinksClusters) :
    ((rows.foldl (fun m link => mapStore m link.ExternalLinksId link.ExternalLinksId)
      ([] : List (Int × Int))).map Prod.fst).Nodup ∧
    (∀ k, k ∈ (rows.foldl (fun m link => mapStore m link.ExternalLinksId link.ExternalLinksId)
      ([] : List (Int × Int))).map Prod.fst ↔ ∃ row ∈ rows, row.ExternalLinksId = k) ∧
    (∀ p ∈ rows.foldl (fun m link => mapStore m link.ExternalLinksId link.ExternalLinksId)
      ([] : List (Int × Int)), p.2 = p.1) := by
  induction rows using List.reverseRecOn with
  | nil => simp
  | append_singleton rows row ih =>
    obtain ⟨ih1, ih2, ih3⟩ := ih
    rw [List.foldl_append, List.foldl_cons, List.foldl_nil]
    generalize rows.foldl (fun m link => mapStore m link.ExternalLinksId link.ExternalLinksId)
      ([] : List (Int × Int)) = m at ih1 ih2 ih3 ⊢
    have hval : ∀ p ∈ mapStore m row.ExternalLinksId row.ExternalLinksId, p.2 = p.1 := by
      intro p hp
      obtain ⟨k, v⟩ := p
      have hl : mapLoad (mapStore m row.ExternalLinksId row.ExternalLinksId) k = some v := by
        apply mapLoad_of_mem _ _ _ _ hp
        rw [mapStore_keys]
        split
        · exact ih1
        · rename_i hk
          rw [List.nodup_append]
          refine ⟨ih1, List.nodup_singleton _, ?_⟩
          intro a ha hb
          rw [List.mem_singleton] at hb
          subst hb
          exact hk ha
      rw [mapLoad_mapStore] at hl
      by_cases hk : k = row.ExternalLinksId
      · rw [if_pos hk] at hl
        cases hl
        exact hk.symm
      · rw [if_neg hk] at hl
        exact ih3 _ (mem_of_mapLoad _ _ _ hl)
    rw [mapStore_keys]
    by_cases hk : row.ExternalLinksId ∈ m.map Prod.fst
    · rw [if_pos hk]
      refine ⟨ih1, ?_, hval⟩
      intro k
      rw [ih2 k]
      constructor
      · rintro ⟨x, hx, hxk⟩
        exact ⟨x, List.mem_append_left _ hx, hxk⟩
      · rintro ⟨x, hx, hxk⟩
        rcases List.mem_append.1 hx with hx | hx
        · exact ⟨x, hx, hxk⟩
        · rw [List.mem_singleton] at hx
          subst hx
          rw [← hxk]
          exact (ih2 _).1 hk
    · rw [if_neg hk]
      refine ⟨?_, ?_, hval⟩
      · rw [List.nodup_append]
        refine ⟨ih1, List.nodup_singleton _, ?_⟩
        intro a ha hb
        rw [List.mem_singleton] at hb
        subst hb
        exact hk ha
      · intro k
        rw [List.mem_append, ih2 k, List.mem_singleton]
        constructor
        · rintro (⟨x, hx, hxk⟩ | rfl)
          · exact ⟨x, List.mem_append_left _ hx, hxk⟩
          · exact ⟨row, by simp, rfl⟩
        · rintro ⟨x, hx, hxk⟩
          rcases List.mem_append.1 hx with hx | hx
          · exact Or.inl ⟨x, hx, hxk⟩
          · rw [List.mem_singleton] at hx
            subst hx
            exact Or.inr hxk.symm


theorem mappedIds_spec (mo : MapOrder) (rows : List ExternalLinksClusters) :
    (mappedIds mo rows).Nodup ∧
    ∀ k, k ∈ mappedIds mo rows ↔ ∃ row ∈ rows, row.ExternalLinksId = k := by
  obtain ⟨h1, h2, h3⟩ := idFold_spec rows
  unfold mappedIds
  simp only
  generalize rows.foldl (fun m link => mapStore m link.ExternalLinksId link.ExternalLinksId)
    ([] : List (Int × Int)) = m at h1 h2 h3 ⊢
  have hperm := mo.perm Int m
  have hsnd : (mo.iter Int m).map Prod.snd = (mo.iter Int m).map Prod.fst := by
    apply List.map_congr_left
    intro p hp
    exact h3 p (hperm.mem_iff.1 hp)
  rw [hsnd]
  have hp2 : ((mo.iter Int m).map Prod.fst).Perm (m.map Prod.fst) := hperm.map _
  refine ⟨hp2.nodup_iff.2 h1, ?_⟩
  intro k
  rw [hp2.mem_iff, h2 k]

theorem collect_zero (rows : List ExternalLinksClusters) :
    ∀ acc : List ExternalLinkoutRequest × List (Int × ExternalLinkoutRequest),
      rows.foldl (collectStep 0) acc = (acc.1, rows.foldl groupStep acc.2) := by
  induction rows with
  | nil => intro acc; rfl
  | cons row rows ih =>
    intro acc
    rw [List.foldl_cons, ih]
    simp [collectStep]

theorem collect_pos (clusterId : Int) (hpos : 0 < clusterId) (rows : List ExternalLinksClusters) :
    ∀ acc : List ExternalLinkoutRequest × List (Int × ExternalLinkoutRequest),
      rows.foldl (collectStep clusterId) acc =
        (acc.1 ++ rows.map (fun row => { linkResponse row with ClusterIds := [row.ClusterId] }),
          acc.2) := by
  induction rows with
  | nil => intro acc; simp
  | cons row rows ih =>
    intro acc
    rw [List.foldl_cons, ih]
    simp [collectStep, hpos, linkResponse]

theorem grouped_entries (mo : MapOrder) (rows : List ExternalLinksClusters) :
    ∃ keys : List Int, keys.Nodup ∧
      (∀ k, k ∈ keys ↔ ∃ row ∈ rows, row.ExternalLinksId = k) ∧
      (mo.iter ExternalLinkoutRequest (rows.foldl groupStep [])).map Prod.snd =
        keys.map (groupedResponse rows) := by
  obtain ⟨h1, h2, h3⟩ := groupFold_spec rows
  generalize rows.foldl groupStep [] = m at h1 h2 h3 ⊢
  have hperm := mo.perm ExternalLinkoutRequest m
  have hp2 : ((mo.iter ExternalLinkoutRequest m).map Prod.fst).Perm (m.map Prod.fst) :=
    hperm.map _
  refine ⟨(mo.iter ExternalLinkoutRequest m).map Prod.fst, hp2.nodup_iff.2 h1, ?_, ?_⟩
  · intro k
    rw [hp2.mem_iff, h2 k]
  · rw [List.map_map]
    apply List.map_congr_left
    intro p hp
    obtain ⟨k, v⟩ := p
    have hmem : (k, v) ∈ m := hperm.mem_iff.1 hp
    have hl := mapLoad_of_mem m h1 k v hmem
    have hk : k ∈ m.map Prod.fst := List.mem_map_of_mem Prod.fst hmem
    rw [h3 k hk] at hl
    simpa using (Option.some.inj hl).symm

/-- C3. `FetchAllActiveLinks(0)` when `FindAllActive` returns the rows `rows` and
`FindAllNonMapped` returns the links `extra`, both without error: `FindAllNonMapped` is called
with a duplicate-free list of exactly the link ids occurring in `rows`; the result is, for a
duplicate-free list `keys` of exactly the link ids occurring in `rows`, one entry per key
whose `ClusterIds` are the cluster ids of all rows of that link in row order, followed by one
entry with empty `ClusterIds` per link of `extra`, and nothing else; the error is nil. -/
theorem FetchAllActiveLinks_zero_groups_by_link {σ : Type} (mo : MapOrder) (r : Repos σ)
    (s s1 s2 : σ) (rows : List ExternalLinksClusters) (extra : List ExternalLinks)
    (hactive : r.clustersFindAllActive s = ((rows, none), s1))
    (hnonmapped : r.linksFindAllNonMapped (mappedIds mo rows) s1 = ((extra, none), s2)) :
    (mappedIds mo rows).Nodup ∧
    (∀ k, k ∈ mappedIds mo rows ↔ ∃ row ∈ rows, row.ExternalLinksId = k) ∧
    (∀ link ∈ extra, (unmappedResponse link).ClusterIds = []) ∧
    ∃ keys : List Int, keys.Nodup ∧
      (∀ k, k ∈ keys ↔ ∃ row ∈ rows, row.ExternalLinksId = k) ∧
      (∀ k ∈ keys, (groupedResponse rows k).ClusterIds =
        (rows.filter (fun row => row.ExternalLinksId = k)).map (fun row => row.ClusterId)) ∧
      FetchAllActiveLinks mo r 0 s =
        ((keys.map (groupedResponse rows) ++ extra.map unmappedResponse, none), s2) := by
  obtain ⟨keys, hk1, hk2, hk3⟩ := grouped_entries mo rows
  refine ⟨(mappedIds_spec mo rows).1, (mappedIds_spec mo rows).2, fun _ _ => rfl,
    keys, hk1, hk2, fun _ _ => rfl, ?_⟩
  simp only [FetchAllActiveLinks, hactive, if_true, collect_zero, hnonmapped, List.nil_append,
    hk3]

/-- C4. `FetchAllActiveLinks(C)` for `C > 0` when `FindAllActive` returns the rows `all`,
`FindAllActiveByClusterId(C)` the rows `rows` and `FindAllNonMapped` the links `extra`, all
without error: the result is one entry per row of `rows`, in row order and not deduplicated,
each with the single-element `ClusterIds` of that row's cluster id, followed by one entry with
empty `ClusterIds` per link of `extra`; `FindAllNonMapped` is called with a duplicate-free
list of exactly the link ids occurring in `all`, the active associations of any cluster; and
when the read by cluster id leaves the store as it was, `FetchAllActiveLinks(0)` on the same
store ends with the same entries for `extra`. -/
theorem FetchAllActiveLinks_cluster_one_entry_per_row {σ : Type} (mo : MapOrder) (r : Repos σ)
    (clusterId : Int) (s s1 s2 s3 : σ) (all rows : List ExternalLinksClusters)
    (extra : List ExternalLinks)
    (hpos : 0 < clusterId)
    (hactive : r.clustersFindAllActive s = ((all, none), s1))
    (hcluster : r.clustersFindAllActiveByClusterId clusterId s1 = ((rows, none), s2))
    (hnonmapped : r.linksFindAllNonMapped (mappedIds mo all) s2 = ((extra, none), s3)) :
    FetchAllActiveLinks mo r clusterId s =
      ((rows.map (fun row => { linkResponse row with ClusterIds := [row.ClusterId] }) ++
        extra.map unmappedResponse, none), s3) ∧
    (∀ link ∈ extra, (unmappedResponse link).ClusterIds = []) ∧
    (mappedIds mo all).Nodup ∧
    (∀ k, k ∈ mappedIds mo all ↔ ∃ row ∈ all, row.ExternalLinksId = k) ∧
    (s2 = s1 → ∃ mapped : List ExternalLinkoutRequest,
      FetchAllActiveLinks mo r 0 s = ((mapped ++ extra.map unmappedResponse, none), s3)) := by
  have hne : ¬ clusterId = 0 := by omega
  refine ⟨?_, fun _ _ => rfl, (mappedIds_spec mo all).1, (mappedIds_spec mo all).2, ?_⟩
  · simp only [FetchAllActiveLinks, hactive, hne, if_false, hcluster, collect_pos clusterId hpos,
      hnonmapped]
    simp [mo.perm ExternalLinkoutRequest [] |>.eq_nil]
  · intro hs
    rw [hs] at hnonmapped
    exact ⟨(mo.iter ExternalLinkoutRequest (all.foldl groupStep [])).map Prod.snd, by
      simp only [FetchAllActiveLinks, hactive, if_true, collect_zero, hnonmapped,
        List.nil_append]⟩


theorem deactivateAll_logged {σ : Type} (r : Repos σ) (id : Int) (cs : List Int) :
    ∀ (s : σ) (log : List Call), ∃ calls : List Call,
      deactivateAll (logged r) id cs (s, log) = (replay r calls s, log ++ calls) ∧
      calls.map Call.op = cs.map (fun c => Op.clustersUpdate (inactiveMapping id c)) := by
  induction cs with
  | nil =>
    intro s log
    exact ⟨[], by simp [deactivateAll, replay], rfl⟩
  | cons c cs ih =>
    intro s log
    obtain ⟨calls, h1, h2⟩ := ih (r.clustersUpdate (inactiveMapping id c) s).2
      (log ++ [⟨Op.clustersUpdate (inactiveMapping id c),
        (r.clustersUpdate (inactiveMapping id c) s).1⟩])
    refine ⟨⟨Op.clustersUpdate (inactiveMapping id c),
        (r.clustersUpdate (inactiveMapping id c) s).1⟩ :: calls, ?_, ?_⟩
    · simp only [deactivateAll, logged_clustersUpdate]
      rw [h1]
      simp [replay, Repos.after]
    · simp [h2]

/-- C7. `DeleteLink` under every storage behaviour: the calls are `FindAllClusters(id)`, then
one association `Update` with `Active: false` per cluster id that `FindAllClusters` returned
(whether or not it also returned an error), then the link `Update` with `Active: false`,
whatever errors the earlier calls returned; the returned error is the error of that last
call, so it is non-nil exactly when the link `Update` fails; the final state is the state
these calls leave. -/
theorem DeleteLink_error_is_link_update_error {σ : Type} (r : Repos σ) (id : Int) (s : σ) :
    ((DeleteLink (logged r) id (s, [])).2.2.map Call.op =
      Op.clustersFindAllClusters id ::
        ((r.clustersFindAllClusters id s).1.1.map
          (fun c => Op.clustersUpdate (inactiveMapping id c)) ++
        [Op.linksUpdate (deletedLink id)])) ∧
    (DeleteLink (logged r) id (s, [])).2.2.getLast?.map Call.err =
      some (DeleteLink (logged r) id (s, [])).1 ∧
    ((DeleteLink (logged r) id (s, [])).1 ≠ none ↔
      ∃ c ∈ (DeleteLink (logged r) id (s, [])).2.2,
        c.op = Op.linksUpdate (deletedLink id) ∧ c.err ≠ none) ∧
    (DeleteLink (logged r) id (s, [])).2.1 = replay r (DeleteLink (logged r) id (s, [])).2.2 s := by
  obtain ⟨calls, h1, h2⟩ := deactivateAll_logged r id (r.clustersFindAllClusters id s).1.1
    (r.clustersFindAllClusters id s).2
    [⟨Op.clustersFindAllClusters id, (r.clustersFindAllClusters id s).1.2⟩]
  have hrun : DeleteLink (logged r) id (s, []) =
      ((r.linksUpdate (deletedLink id) (replay r calls (r.clustersFindAllClusters id s).2)).1,
       ((r.linksUpdate (deletedLink id) (replay r calls (r.clustersFindAllClusters id s).2)).2,
        ⟨Op.clustersFindAllClusters id, (r.clustersFindAllClusters id s).1.2⟩ :: (calls ++
          [⟨Op.linksUpdate (deletedLink id),
            (r.linksUpdate (deletedLink id)
              (replay r calls (r.clustersFindAllClusters id s).2)).1⟩]))) := by
    simp only [DeleteLink, logged_clustersFindAllClusters, List.nil_append, h1,
      logged_linksUpdate]
    cases (r.linksUpdate (deletedLink id) (replay r calls (r.clustersFindAllClusters id s).2)).1
      <;> simp
  rw [hrun]
  refine ⟨by simp [h2], ?_, ?_, ?_⟩
  · rw [← List.cons_append, List.getLast?_concat]
    rfl
  · constructor
    · intro hne
      refine ⟨⟨Op.linksUpdate (deletedLink id),
        (r.linksUpdate (deletedLink id) (replay r calls (r.clustersFindAllClusters id s).2)).1⟩,
        by simp, rfl, hne⟩
    · rintro ⟨c, hc, hop, herr⟩
      simp only [List.mem_cons, List.mem_append, List.not_mem_nil, or_false] at hc
      rcases hc with rfl | hc | rfl
      · simp at hop
      · have hmem : c.op ∈ calls.map Call.op := List.mem_map_of_mem _ hc
        rw [h2, List.mem_map] at hmem
        obtain ⟨x, _, hx⟩ := hmem
        rw [hop] at hx
        simp at hx
      · exact herr
  · simp [replay, Repos.after, List.foldl_append]

theorem flagOf_eq_one (c : Int) (existing : List Int) : flagOf c existing = 1 ↔ c ∈ existing := by
  induction existing with
  | nil => simp [flagOf]
  | cons e rest ih =>
    by_cases h : c = e
    · simp [flagOf, h]
    · simp [flagOf, h, ih]

theorem deactivateAll_store (id : Int) (cs : List Int) :
    ∀ (st : Store) (log : List Call),
      deactivateAll (logged storeRepos) id cs (st, log) =
        ({ st with clusters := st.clusters.map (fun row =>
            if row.ExternalLinksId = id ∧ row.ClusterId ∈ cs then { row with Active := false }
            else row) },
          log ++ cs.map (fun c => ⟨Op.clustersUpdate (inactiveMapping id c), none⟩)) := by
  induction cs with
  | nil =>
    intro st log
    simp [deactivateAll]
  | cons c cs ih =>
    intro st log
    simp only [deactivateAll, logged_clustersUpdate]
    rw [show (storeRepos.clustersUpdate (inactiveMapping id c) st) =
      (none, { st with clusters := Store.setActive (inactiveMapping id c) st.clusters }) from rfl]
    rw [ih]
    simp only [Store.setActive, List.map_map, List.map_cons, List.append_assoc,
      List.singleton_append, Prod.mk.injEq, and_true]
    congr 1
    apply List.map_congr_left
    intro row _
    by_cases h1 : row.ExternalLinksId = id
    · by_cases h2 : row.ClusterId = c
      · by_cases h3 : row.ClusterId ∈ cs <;> simp [inactiveMapping, h1, h2, h3]
      · by_cases h3 : row.ClusterId ∈ cs <;> simp [inactiveMapping, h1, h2, h3]
    · simp [inactiveMapping, h1]


theorem writeRequested_store (id : Int) (existing : List Int) (requested : List Int) :
    ∀ (st : Store) (log : List Call),
      writeRequested (logged storeRepos) id existing requested (st, log) =
        (none,
          ({ st with clusters :=
              st.clusters.map (fun row =>
                if row.ExternalLinksId = id ∧ row.ClusterId ∈ requested ∧ row.ClusterId ∈ existing
                then { row with Active := true } else row) ++
              (requested.filter (fun c => decide (c ∉ existing))).map (activeMapping id) },
            log ++ requested.map (fun c =>
              ⟨if c ∈ existing then Op.clustersUpdate (activeMapping id c)
                else Op.clustersSave (activeMapping id c), none⟩))) := by
  induction requested with
  | nil =>
    intro st log
    simp [writeRequested]
  | cons c cs ih =>
    intro st log
    by_cases hc : c ∈ existing
    · have hflag : flagOf c existing = 1 := (flagOf_eq_one c existing).2 hc
      simp only [writeRequested, hflag, if_true, logged_clustersUpdate]
      rw [show (storeRepos.clustersUpdate (activeMapping id c) st) =
        (none, { st with clusters := Store.setActive (activeMapping id c) st.clusters }) from rfl]
      simp only
      rw [ih]
      simp only [Store.setActive, List.map_map, List.map_cons, List.append_assoc,
        List.singleton_append, Prod.mk.injEq, true_and, hc, if_true, and_true,
        List.filter_cons, not_true_eq_false, decide_False]
      congr 2
      apply List.map_congr_left
      intro row _
      by_cases h1 : row.ExternalLinksId = id
      · by_cases h2 : row.ClusterId = c
        · by_cases h3 : row.ClusterId ∈ cs <;> simp [activeMapping, h1, h2, h3, hc]
        · by_cases h3 : row.ClusterId ∈ cs <;> simp [activeMapping, h1, h2, h3]
      · simp [activeMapping, h1]
    · have hflag : ¬ flagOf c existing = 1 := fun h => hc ((flagOf_eq_one c existing).1 h)
      simp only [writeRequested, hflag, if_false, logged_clustersSave]
      rw [show (storeRepos.clustersSave (activeMapping id c) st) =
        (none, { st with clusters := st.clusters ++ [activeMapping id c] }) from rfl]
      simp only
      rw [ih]
      simp only [List.map_append, List.map_cons, List.map_nil, List.append_assoc,
        List.singleton_append, Prod.mk.injEq, true_and, hc, if_false, and_true,
        List.filter_cons, not_false_eq_true, decide_True, if_true, List.cons_append,
        List.nil_append]
      have hnew : (if (activeMapping id c).ExternalLinksId = id ∧
          (activeMapping id c).ClusterId ∈ cs ∧ (activeMapping id c).ClusterId ∈ existing
          then { activeMapping id c with Active := true } else activeMapping id c) =
          activeMapping id c := by
        simp [activeMapping, hc]
      rw [hnew]
      congr 2
      apply List.map_congr_left
      intro row _
      by_cases h2 : row.ClusterId = c
      · simp [h2, hc]
      · simp [h2]


theorem Update_store_run (st : Store) (request : ExternalLinkoutRequest) (l0 : ExternalLinks)
    (hfind : st.links.find? (fun l => decide (l.Id = request.Id)) = some l0) :
    Update (logged storeRepos) request (st, []) =
      ((some request, none),
        ({ links := st.links.map (fun l =>
              if l.Id = (updatedLink l0 request).Id then updatedLink l0 request else l),
           clusters :=
            st.clusters.map (fun row =>
              if row.ExternalLinksId = request.Id then
                { row with Active := decide (row.ClusterId ∈ request.ClusterIds) }
              else row) ++
            (request.ClusterIds.filter (fun c => decide (c ∉ st.clusterIdsOf request.Id))).map
              (activeMapping request.Id) },
          [⟨Op.linksFindOne request.Id, none⟩,
            ⟨Op.linksUpdate (updatedLink l0 request), none⟩,
            ⟨Op.clustersFindAllClusters request.Id, none⟩] ++
          (st.clusterIdsOf request.Id).map
            (fun c => ⟨Op.clustersUpdate (inactiveMapping request.Id c), none⟩) ++
          request.ClusterIds.map (fun c =>
            ⟨if c ∈ st.clusterIdsOf request.Id then Op.clustersUpdate (activeMapping request.Id c)
              else Op.clustersSave (activeMapping request.Id c), none⟩))) := by
  have h1 : storeRepos.linksFindOne request.Id st = ((l0, none), st) := by
    simp [storeRepos, hfind]
  have h2 : storeRepos.linksUpdate (updatedLink l0 request) st =
      (none, { st with links := st.links.map (fun l =>
        if l.Id = (updatedLink l0 request).Id then updatedLink l0 request else l) }) := rfl
  have h3 : ∀ st1 : Store, storeRepos.clustersFindAllClusters request.Id st1 =
      ((st1.clusterIdsOf request.Id, none), st1) := fun _ => rfl
  simp only [Update, logged_linksFindOne, h1, logged_linksUpdate, h2,
    logged_clustersFindAllClusters, h3, deactivateAll_store, writeRequested_store]
  simp only [Store.clusterIdsOf, List.nil_append, List.map_map, List.append_assoc,
    List.cons_append, Prod.mk.injEq, true_and, and_true, List.singleton_append]
  congr 2
  apply List.map_congr_left
  intro row hrow
  by_cases hid : row.ExternalLinksId = request.Id
  · have hmem : row.ClusterId ∈ (st.clusters.filter
        (fun row => decide (row.ExternalLinksId = request.Id))).map (fun row => row.ClusterId) :=
      List.mem_map_of_mem _ (List.mem_filter.2 ⟨hrow, by simp [hid]⟩)
    by_cases hreq : row.ClusterId ∈ request.ClusterIds
    · simp [hid, hmem, hreq]
    · simp [hid, hmem, hreq]
  · simp [hid]


/-- C5. `Update` on the store of the spec, for a request whose link exists, with `E` the
cluster ids of the association rows of the link before the call (any active flag) and `R` the
`ClusterIds` of the request: the call returns the request and a nil error; the association
table afterwards is the old rows, those of the link with `Active` set to whether their cluster
id is in `R`, followed by one new active row per entry of `R` that is not in `E`; the
repository calls are `FindOne`, the link `Update`, `FindAllClusters`, one association `Update`
with `Active: false` per entry of `E`, then per entry of `R` an association `Update` with
`Active: true` when the cluster id is in `E` and a `Save` with `Active: true` when it is not.
Hence a cluster id has an active row of the link afterwards exactly when it is in `R`, and
every cluster id in `E` and not in `R` still has a row, all its rows being inactive. -/
theorem Update_reconciles_associations (st : Store) (request : ExternalLinkoutRequest)
    (hfound : ∃ l ∈ st.links, l.Id = request.Id) :
    (Update (logged storeRepos) request (st, [])).1 = (some request, none) ∧
    (Update (logged storeRepos) request (st, [])).2.1.clusters =
      st.clusters.map (fun row =>
        if row.ExternalLinksId = request.Id then
          { row with Active := decide (row.ClusterId ∈ request.ClusterIds) }
        else row) ++
      (request.ClusterIds.filter (fun c => decide (c ∉ st.clusterIdsOf request.Id))).map
        (activeMapping request.Id) ∧
    (Update (logged storeRepos) request (st, [])).2.2.map Call.op =
      [Op.linksFindOne request.Id,
        Op.linksUpdate (updatedLink (storeRepos.linksFindOne request.Id st).1.1 request),
        Op.clustersFindAllClusters request.Id] ++
      (st.clusterIdsOf request.Id).map (fun c => Op.clustersUpdate (inactiveMapping request.Id c)) ++
      request.ClusterIds.map (fun c =>
        if c ∈ st.clusterIdsOf request.Id then Op.clustersUpdate (activeMapping request.Id c)
        else Op.clustersSave (activeMapping request.Id c)) ∧
    (∀ c, (∃ row ∈ (Update (logged storeRepos) request (st, [])).2.1.clusters,
        row.ExternalLinksId = request.Id ∧ row.ClusterId = c ∧ row.Active = true) ↔
      c ∈ request.ClusterIds) ∧
    (∀ c ∈ st.clusterIdsOf request.Id, c ∉ request.ClusterIds →
      (∃ row ∈ (Update (logged storeRepos) request (st, [])).2.1.clusters,
        row.ExternalLinksId = request.Id ∧ row.ClusterId = c) ∧
      ∀ row ∈ (Update (logged storeRepos) request (st, [])).2.1.clusters,
        row.ExternalLinksId = request.Id → row.ClusterId = c → row.Active = false) := by
  have hsome : (st.links.find? (fun l => decide (l.Id = request.Id))).isSome = true := by
    rw [List.find?_isSome]
    obtain ⟨l, hl, hid⟩ := hfound
    exact ⟨l, hl, by simp [hid]⟩
  obtain ⟨l0, hfind⟩ := Option.isSome_iff_exists.1 hsome
  have h1 : storeRepos.linksFindOne request.Id st = ((l0, none), st) := by
    simp [storeRepos, hfind]
  rw [Update_store_run st request l0 hfind, h1]
  have hE : ∀ c, c ∈ st.clusterIdsOf request.Id ↔
      ∃ row ∈ st.clusters, row.ExternalLinksId = request.Id ∧ row.ClusterId = c := by
    intro c
    simp [Store.clusterIdsOf, List.mem_map, List.mem_filter, and_assoc]
  refine ⟨rfl, rfl, ?_, ?_, ?_⟩
  · simp only [List.map_append, List.map_cons, List.map_nil, List.map_map]
    congr 1
  · intro c
    simp only [List.mem_append, List.mem_map, List.mem_filter]
    constructor
    · rintro ⟨row, (⟨row0, _, hrow⟩ | ⟨c1, ⟨hc1, _⟩, hrow⟩), hlink, hcl, hact⟩
      · by_cases hid : row0.ExternalLinksId = request.Id
        · rw [if_pos hid] at hrow
          subst hrow
          simp only [decide_eq_true_eq] at hact
          exact hcl ▸ hact
        · rw [if_neg hid] at hrow
          subst hrow
          exact absurd hlink hid
      · subst hrow
        exact hcl ▸ hc1
    · intro hcR
      by_cases hcE : c ∈ st.clusterIdsOf request.Id
      · obtain ⟨row0, hmem, hid, hcl⟩ := (hE c).1 hcE
        refine ⟨_, Or.inl ⟨row0, hmem, rfl⟩, ?_⟩
        rw [if_pos hid]
        exact ⟨hid, hcl, by simp [hcl, hcR]⟩
      · exact ⟨activeMapping request.Id c, Or.inr ⟨c, ⟨hcR, by simp [hcE]⟩, rfl⟩, rfl, rfl, rfl⟩
  · intro c hcE hcR
    simp only [List.mem_append, List.mem_map, List.mem_filter]
    constructor
    · obtain ⟨row0, hmem, hid, hcl⟩ := (hE c).1 hcE
      refine ⟨_, Or.inl ⟨row0, hmem, rfl⟩, ?_⟩
      rw [if_pos hid]
      exact ⟨hid, hcl⟩
    · rintro row (⟨row0, _, hrow⟩ | ⟨c1, ⟨hc1, _⟩, hrow⟩) hlink hcl
      · by_cases hid : row0.ExternalLinksId = request.Id
        · rw [if_pos hid] at hrow
          subst hrow
          have hcl2 : row0.ClusterId = c := hcl
          simp [hcl2, hcR]
        · rw [if_neg hid] at hrow
          subst hrow
          exact absurd hlink hid
      · subst hrow
        have hcl2 : c1 = c := hcl
        exact absurd (hcl2 ▸ hc1) hcR


/-- C1, evaluated at one request with one cluster id on the empty store: `Create` succeeds,
the link row is saved with `Active = true`, and the association row is passed to `Save` and
stored with `Active = false`. -/
theorem Create_saves_inactive_association :
    (Create (logged storeRepos) [createRequest] ({}, [])).1 = ([createRequest], none) ∧
    (Create (logged storeRepos) [createRequest] ({}, [])).2.2 =
      [⟨Op.linksSave
          { Name := "grafana", Url := "https://grafana.local", Active := true,
            ExternalLinksMonitoringToolId := 1 }, none⟩,
        ⟨Op.clustersSave { ExternalLinksId := 1, ClusterId := 1, Active := false }, none⟩] ∧
    (Create (logged storeRepos) [createRequest] ({}, [])).2.1.clusters =
      [{ ExternalLinksId := 1, ClusterId := 1, Active := false }] := by
  decide

/-- Instance of C2 with three requests where the `Save` of the second association of the
second request fails: `Create` returns a nil list and the cluster api error; it has made all
three inserts of the first request, the link insert and the first association insert of the
second request, and the failing insert as its last call; the rows of these five successful
inserts are in the store, and nothing of the third request was processed. -/
theorem Create_stops_at_first_failing_save_witness :
    (∃ c ∈ saveAll failOnCluster2 createRequests {}, c.err ≠ none) ∧
    (Create (logged failOnCluster2) createRequests ({}, [])).1 = ([], some clusterCreateError) ∧
    (Create (logged failOnCluster2) createRequests ({}, [])).2.2 =
      [⟨Op.linksSave (newLink createRequestGrafana), none⟩,
       ⟨Op.clustersSave { ExternalLinksId := 1, ClusterId := 1, Active := false }, none⟩,
       ⟨Op.clustersSave { ExternalLinksId := 1, ClusterId := 3, Active := false }, none⟩,
       ⟨Op.linksSave (newLink createRequestKibana), none⟩,
       ⟨Op.clustersSave { ExternalLinksId := 2, ClusterId := 1, Active := false }, none⟩,
       ⟨Op.clustersSave { ExternalLinksId := 2, ClusterId := 2, Active := false },
         some (GoError.storage "failed")⟩] ∧
    (Create (logged failOnCluster2) createRequests ({}, [])).2.1 =
      { links :=
          [{ Id := 1, Name := "grafana", Url := "https://grafana.local", Active := true },
           { Id := 2, Name := "kibana", Url := "https://kibana.local", Active := true }],
        clusters :=
          [{ ExternalLinksId := 1, ClusterId := 1, Active := false },
           { ExternalLinksId := 1, ClusterId := 3, Active := false },
           { ExternalLinksId := 2, ClusterId := 1, Active := false }] } :=
  ⟨by decide,
    Prod.ext
      ((Create_stops_at_first_failing_save failOnCluster2 createRequests {}).2.2.2.2.2.1
        (by decide)).1
      ((Create_stops_at_first_failing_save failOnCluster2 createRequests {}).2.2.1.trans
        (by decide)),
    (Create_stops_at_first_failing_save failOnCluster2 createRequests {}).1.trans (by decide),
    (Create_stops_at_first_failing_save failOnCluster2 createRequests {}).2.1.trans
      (by decide)⟩

/-- Instance of C3 on `sampleStore` with maps iterated in reverse insertion order: one entry
for link 2 with cluster 1, one entry for link 1 with clusters 1 and 2, one entry for the
unmapped link 3. -/
theorem FetchAllActiveLinks_zero_groups_by_link_witness :
    storeRepos.clustersFindAllActive sampleStore = ((sampleActiveRows, none), sampleStore) ∧
    storeRepos.linksFindAllNonMapped (mappedIds reverseOrder sampleActiveRows) sampleStore =
      (([sampleLink3], none), sampleStore) ∧
    (∃ keys : List Int, keys.Nodup ∧
      (∀ k, k ∈ keys ↔ ∃ row ∈ sampleActiveRows, row.ExternalLinksId = k) ∧
      FetchAllActiveLinks reverseOrder storeRepos 0 sampleStore =
        ((keys.map (groupedResponse sampleActiveRows) ++ [sampleLink3].map unmappedResponse,
          none), sampleStore)) ∧
    (FetchAllActiveLinks reverseOrder storeRepos 0 sampleStore).1.1.map
        (fun e => (e.Name, e.ClusterIds)) =
      [("kibana", [1]), ("grafana", [1, 2]), ("wiki", [])] :=
  ⟨by decide, by decide,
    (FetchAllActiveLinks_zero_groups_by_link reverseOrder storeRepos sampleStore sampleStore
      sampleStore sampleActiveRows [sampleLink3] (by decide) (by decide)).2.2.2.elim
      (fun keys h => ⟨keys, h.1, h.2.1, h.2.2.2⟩),
    by decide⟩

/-- Instance of C4 on `sampleStore` for cluster 1: one entry per active association row of
cluster 1, then the entry of the unmapped link 3. -/
theorem FetchAllActiveLinks_cluster_one_entry_per_row_witness :
    (0 : Int) < 1 ∧
    storeRepos.clustersFindAllActive sampleStore = ((sampleActiveRows, none), sampleStore) ∧
    storeRepos.clustersFindAllActiveByClusterId 1 sampleStore =
      ((sampleCluster1Rows, none), sampleStore) ∧
    storeRepos.linksFindAllNonMapped (mappedIds insertionOrder sampleActiveRows) sampleStore =
      (([sampleLink3], none), sampleStore) ∧
    FetchAllActiveLinks insertionOrder storeRepos 1 sampleStore =
      ((sampleCluster1Rows.map
          (fun row => { linkResponse row with ClusterIds := [row.ClusterId] }) ++
        [sampleLink3].map unmappedResponse, none), sampleStore) :=
  ⟨by decide, by decide, by decide, by decide,
    (FetchAllActiveLinks_cluster_one_entry_per_row insertionOrder storeRepos 1 sampleStore
      sampleStore sampleStore sampleStore sampleActiveRows sampleCluster1Rows [sampleLink3]
      (by decide) (by decide) (by decide) (by decide)).1⟩

/-- Instance of C5 with prior associations 1, 2, 3 and requested cluster ids 2 and 4: the
rows of clusters 1 and 3 are inactive, the row of cluster 2 is active and was written with
`Update`, the row of cluster 4 is new, active and was written with `Save`. -/
theorem Update_reconciles_associations_witness :
    (∃ l ∈ updateStore.links, l.Id = updateRequest.Id) ∧
    (Update (logged storeRepos) updateRequest (updateStore, [])).1 = (some updateRequest, none) ∧
    (Update (logged storeRepos) updateRequest (updateStore, [])).2.1.clusters =
      [{ ExternalLinksId := 7, ClusterId := 1, Active := false },
       { ExternalLinksId := 7, ClusterId := 2, Active := true },
       { ExternalLinksId := 7, ClusterId := 3, Active := false },
       { ExternalLinksId := 7, ClusterId := 4, Active := true }] ∧
    (Update (logged storeRepos) updateRequest (updateStore, [])).2.2.map Call.op =
      [Op.linksFindOne 7,
       Op.linksUpdate
         { Id := 7, Name := "grafana", Url := "https://grafana.local", Active := true },
       Op.clustersFindAllClusters 7,
       Op.clustersUpdate { ExternalLinksId := 7, ClusterId := 1, Active := false },
       Op.clustersUpdate { ExternalLinksId := 7, ClusterId := 2, Active := false },
       Op.clustersUpdate { ExternalLinksId := 7, ClusterId := 3, Active := false },
       Op.clustersUpdate { ExternalLinksId := 7, ClusterId := 2, Active := true },
       Op.clustersSave { ExternalLinksId := 7, ClusterId := 4, Active := true }] :=
  ⟨by decide,
    (Update_reconciles_associations updateStore updateRequest (by decide)).1,
    (Update_reconciles_associations updateStore updateRequest (by decide)).2.1.trans
      (by decide),
    (Update_reconciles_associations updateStore updateRequest (by decide)).2.2.1.trans
      (by decide)⟩

/-- Instances of C7 on `sampleStore` for link 1: when every association `Update` fails the
four calls are still made, the link is deactivated and the returned error is nil; when the
link `Update` fails the returned error is non-nil. -/
theorem DeleteLink_error_is_link_update_error_witness :
    (DeleteLink (logged failOnLinkUpdate) 1 (sampleStore, [])).1 ≠ none ∧
    (DeleteLink (logged failOnAssociationUpdate) 1 (sampleStore, [])).1 = none ∧
    (DeleteLink (logged failOnAssociationUpdate) 1 (sampleStore, [])).2.2 =
      [⟨Op.clustersFindAllClusters 1, none⟩,
       ⟨Op.clustersUpdate { ExternalLinksId := 1, ClusterId := 1, Active := false },
         some (GoError.storage "failed")⟩,
       ⟨Op.clustersUpdate { ExternalLinksId := 1, ClusterId := 2, Active := false },
         some (GoError.storage "failed")⟩,
       ⟨Op.clustersUpdate { ExternalLinksId := 1, ClusterId := 3, Active := false },
         some (GoError.storage "failed")⟩,
       ⟨Op.linksUpdate { Id := 1, Active := false }, none⟩] ∧
    (DeleteLink (logged failOnAssociations) 1 (sampleStore, [])).2.2 =
      [⟨Op.clustersFindAllClusters 1, some (GoError.storage "failed")⟩,
       ⟨Op.linksUpdate { Id := 1, Active := false }, none⟩] :=
  ⟨(DeleteLink_error_is_link_update_error failOnLinkUpdate 1 sampleStore).2.2.1.2
      ⟨⟨Op.linksUpdate (deletedLink 1), some (GoError.storage "failed")⟩, by decide, rfl,
        by decide⟩,
    by decide, by decide, by decide⟩

/-- C6, evaluated at a request that repeats cluster 4 for link 1, which has no association:
`Update` succeeds, calls `Save` twice for the pair (1, 4), and the store ends with two rows
for that pair. -/
theorem Update_repeated_cluster_id_saves_twice :
    oneLinkStore.clusters = [] ∧
    (Update (logged storeRepos) repeatedRequest (oneLinkStore, [])).1 =
      (some repeatedRequest, none) ∧
    (Update (logged storeRepos) repeatedRequest (oneLinkStore, [])).2.2.map Call.op =
      [Op.linksFindOne 1,
       Op.linksUpdate
         { Id := 1, Name := "grafana", Url := "https://grafana.local", Active := true },
       Op.clustersFindAllClusters 1,
       Op.clustersSave { ExternalLinksId := 1, ClusterId := 4, Active := true },
       Op.clustersSave { ExternalLinksId := 1, ClusterId := 4, Active := true }] ∧
    (Update (logged storeRepos) repeatedRequest (oneLinkStore, [])).2.1.clusters =
      [{ ExternalLinksId := 1, ClusterId := 4, Active := true },
       { ExternalLinksId := 1, ClusterId := 4, Active := true }] := by
  decide

/-- `FetchAllActiveLinks` for a cluster id other than 0 under every storage behaviour: when
`FindAllActiveByClusterId` and `FindAllNonMapped` return no error, the returned error is nil
whatever error `FindAllActive` returned. -/
theorem FetchAllActiveLinks_ignores_FindAllActive_error {σ : Type} (mo : MapOrder)
    (r : Repos σ) (clusterId : Int) (s : σ) (hne : clusterId ≠ 0)
    (hcluster : (r.clustersFindAllActiveByClusterId clusterId (r.clustersFindAllActive s).2).1.2 =
      none)
    (hnonmapped : (r.linksFindAllNonMapped (mappedIds mo (r.clustersFindAllActive s).1.1)
      (r.clustersFindAllActiveByClusterId clusterId (r.clustersFindAllActive s).2).2).1.2 =
        none) :
    (FetchAllActiveLinks mo r clusterId s).1.2 = none := by
  cases h1 : r.clustersFindAllActiveByClusterId clusterId (r.clustersFindAllActive s).2 with
  | mk res1 s1 =>
    obtain ⟨rows, e1⟩ := res1
    rw [h1] at hcluster hnonmapped
    simp only at hcluster hnonmapped
    subst hcluster
    cases h2 : r.linksFindAllNonMapped (mappedIds mo (r.clustersFindAllActive s).1.1) s1 with
    | mk res2 s2 =>
      obtain ⟨extra, e2⟩ := res2
      rw [h2] at hnonmapped
      simp only at hnonmapped
      subst hnonmapped
      simp [FetchAllActiveLinks, hne, h1, h2]

/-- C10, evaluated at cluster id 1 on `sampleStore` when `FindAllActive` fails and the other
reads succeed: the three reads are made, the first returns an error, and
`FetchAllActiveLinks(1)` returns a nil error with a non-empty list, in which links 1 and 2
appear again as unmapped; with cluster id 0 the same storage behaviour gives the error. -/
theorem FetchAllActiveLinks_drops_FindAllActive_failure :
    (FetchAllActiveLinks insertionOrder (logged failOnFindAllActive) 1 (sampleStore, [])).2.2 =
      [⟨Op.clustersFindAllActive, some (GoError.storage "failed")⟩,
       ⟨Op.clustersFindAllActiveByClusterId 1, none⟩,
       ⟨Op.linksFindAllNonMapped [], none⟩] ∧
    (FetchAllActiveLinks insertionOrder (logged failOnFindAllActive) 1 (sampleStore, [])).1.2 =
      none ∧
    (FetchAllActiveLinks insertionOrder (logged failOnFindAllActive) 1
        (sampleStore, [])).1.1.map (fun e => (e.Name, e.ClusterIds)) =
      [("grafana", [1]), ("kibana", [1]), ("grafana", []), ("kibana", []), ("wiki", [])] ∧
    (FetchAllActiveLinks insertionOrder (logged failOnFindAllActive) 0 (sampleStore, [])).1 =
      ([], some (GoError.storage "failed")) := by
  decide

end ExternalLinkout

namespace User
open ExternalLinkout (GoError)

theorem collectRoles_foldl (roleEntries : List SelfRegistrationRoles) :
    ∀ acc : List String,
      roleEntries.foldl
          (fun roles role => if role.Role ≠ "" then roles ++ [role.Role] else roles) acc =
        acc ++ (roleEntries.filter (fun role => decide (role.Role ≠ ""))).map (fun role => role.Role) := by
  induction roleEntries with
  | nil => intro acc; simp
  | cons role rest ih =>
    intro acc
    rw [List.foldl_cons, ih]
    by_cases h : role.Role = ""
    · simp [h]
    · simp [h]

theorem collectRoles_eq (roleEntries : List SelfRegistrationRoles) :
    collectRoles roleEntries =
      (roleEntries.filter (fun role => decide (role.Role ≠ ""))).map (fun role => role.Role) := by
  rw [collectRoles, collectRoles_foldl]
  simp

theorem checkLoop_iff (roleEntries : List SelfRegistrationRoles) :
    checkLoop roleEntries = true ↔ ∃ role ∈ roleEntries, role.Role ≠ "" := by
  induction roleEntries with
  | nil => simp [checkLoop]
  | cons role rest ih =>
    by_cases h : role.Role = ""
    · simp [checkLoop, h, ih]
    · simp [checkLoop, h]

/-- C8. When the catalog fetch succeeds, `Check` returns a nil error, and returns true exactly
when some entry of the fetched catalog (nil counting as empty) has a non-empty role string,
which is exactly when `GetAll` on the same catalog returns a non-empty list; `GetAll` returns
the non-empty role strings in catalog order. -/
theorem Check_true_iff_nonempty_role {σ : Type} (impl : SelfRegistrationRolesServiceImpl σ)
    (s s1 : σ) (roleEntries : Option (List SelfRegistrationRoles))
    (hfetch : impl.selfRegistrationRolesRepository s = ((roleEntries, none), s1)) :
    (Check impl s).1.2 = none ∧
    ((Check impl s).1.1 = true ↔ ∃ role ∈ roleEntries.getD [], role.Role ≠ "") ∧
    ((Check impl s).1.1 = true ↔ (GetAll impl s).1.1 ≠ []) ∧
    (GetAll impl s).1 =
      (((roleEntries.getD []).filter (fun role => decide (role.Role ≠ ""))).map
        (fun role => role.Role), none) := by
  have hget : (GetAll impl s).1 =
      (((roleEntries.getD []).filter (fun role => decide (role.Role ≠ ""))).map
        (fun role => role.Role), none) := by
    simp [GetAll, hfetch, collectRoles_eq]
  cases roleEntries with
  | none =>
    refine ⟨by simp [Check, hfetch], by simp [Check, hfetch], ?_, hget⟩
    rw [hget]
    simp [Check, hfetch]
  | some entries =>
    have hcheck : (Check impl s).1 = (checkLoop entries, none) := by simp [Check, hfetch]
    refine ⟨by rw [hcheck], by rw [hcheck]; simpa using checkLoop_iff entries, ?_, hget⟩
    rw [hcheck, hget]
    simp only [Option.getD_some, ne_eq, List.map_eq_nil_iff]
    rw [checkLoop_iff]
    constructor
    · rintro ⟨role, hmem, hne⟩ hnil
      have : role ∈ entries.filter (fun role => decide (¬role.Role = "")) := by
        simp [List.mem_filter, hmem, hne]
      rw [hnil] at this
      simp at this
    · intro hne
      obtain ⟨role, hrole⟩ := List.exists_mem_of_ne_nil _ hne
      simp only [List.mem_filter, decide_eq_true_eq] at hrole
      exact ⟨role, hrole.1, hrole.2⟩

/-- Instance of C8 at the catalog with an empty entry and the role `admin`: the fetch
succeeds, `Check` returns true and `GetAll` returns the one role. -/
theorem Check_true_iff_nonempty_role_witness :
    adminCatalog () = ((some [{ Role := "" }, { Role := "admin" }], none), ()) ∧
    (Check (NewSelfRegistrationRolesServiceImpl adminCatalog) ()).1 = (true, none) ∧
    (GetAll (NewSelfRegistrationRolesServiceImpl adminCatalog) ()).1 = (["admin"], none) :=
  ⟨rfl,
    Prod.ext
      ((Check_true_iff_nonempty_role (NewSelfRegistrationRolesServiceImpl adminCatalog) () ()
        (some [{ Role := "" }, { Role := "admin" }]) rfl).2.1.2 (by decide))
      (Check_true_iff_nonempty_role (NewSelfRegistrationRolesServiceImpl adminCatalog) () ()
        (some [{ Role := "" }, { Role := "admin" }]) rfl).1,
    (Check_true_iff_nonempty_role (NewSelfRegistrationRolesServiceImpl adminCatalog) () ()
      (some [{ Role := "" }, { Role := "admin" }]) rfl).2.2.2⟩


/-- `SelfRegister` with a user-provisioning collaborator in place: no `CreateUser` call when
the catalog fetch fails or the catalog has no non-empty role, otherwise exactly one call, with
the email and the non-empty role strings in catalog order; the call returns in every case,
whatever `CreateUser` returns. -/
theorem SelfRegister_with_userService {σ : Type}
    (repo : σ → (Option (List SelfRegistrationRoles) × Option GoError) × σ)
    (createUser : UserInfo → σ → Option GoError × σ) (emailId : String) (s : σ) :
    (SelfRegister (recording ⟨repo, some createUser⟩) emailId (s, [])).1 = Completion.returned ∧
    (SelfRegister (recording ⟨repo, some createUser⟩) emailId (s, [])).2.2 =
      if (repo s).1.2 = none ∧ ∃ role ∈ (repo s).1.1.getD [], role.Role ≠ "" then
        [{ EmailId := emailId,
           Roles := (((repo s).1.1.getD []).filter (fun role => decide (role.Role ≠ ""))).map
             (fun role => role.Role) }]
      else [] := by
  cases h : repo s with
  | mk res s1 =>
    obtain ⟨entries, e⟩ := res
    cases e with
    | some e => simp [SelfRegister, GetAll, recording, h]
    | none =>
      by_cases hall : ∀ a ∈ entries.getD [], a.Role = ""
      · have hex : ¬ ∃ role ∈ entries.getD [], ¬ role.Role = "" := by
          rintro ⟨role, hmem, hrole⟩
          exact hrole (hall role hmem)
        simp only [SelfRegister, GetAll, recording, h, collectRoles_eq, Option.map_some',
          List.length_eq_zero, List.map_eq_nil_iff, List.filter_eq_nil_iff, ne_eq,
          decide_eq_true_eq, not_not, true_and]
        rw [if_pos hall, if_neg hex]
        exact ⟨rfl, rfl⟩
      · have hex : ∃ role ∈ entries.getD [], ¬ role.Role = "" := by
          by_contra hcon
          apply hall
          intro a ha
          by_contra hne
          exact hcon ⟨a, ha, hne⟩
        simp only [SelfRegister, GetAll, recording, h, collectRoles_eq, Option.map_some',
          List.length_eq_zero, List.map_eq_nil_iff, List.filter_eq_nil_iff, ne_eq,
          decide_eq_true_eq, not_not, true_and]
        rw [if_neg hall, if_pos hex]
        exact ⟨rfl, by simp⟩

/-- `SelfRegister` on the service that `NewSelfRegistrationRolesServiceImpl` builds: the
call ends in a nil-pointer panic exactly when the catalog fetch succeeds with some non-empty
role, and returns otherwise; no `CreateUser` call is made in either case. -/
theorem SelfRegister_without_userService {σ : Type}
    (repo : σ → (Option (List SelfRegistrationRoles) × Option GoError) × σ)
    (emailId : String) (s : σ) :
    ((SelfRegister (recording (NewSelfRegistrationRolesServiceImpl repo)) emailId (s, [])).1 =
        Completion.nilPointerPanic ↔
      (repo s).1.2 = none ∧ ∃ role ∈ (repo s).1.1.getD [], role.Role ≠ "") ∧
    (SelfRegister (recording (NewSelfRegistrationRolesServiceImpl repo)) emailId (s, [])).2.2 =
      [] := by
  cases h : repo s with
  | mk res s1 =>
    obtain ⟨entries, e⟩ := res
    cases e with
    | some e => simp [SelfRegister, GetAll, recording, NewSelfRegistrationRolesServiceImpl, h]
    | none =>
      by_cases hall : ∀ a ∈ entries.getD [], a.Role = ""
      · have hex : ¬ ∃ role ∈ entries.getD [], ¬ role.Role = "" := by
          rintro ⟨role, hmem, hrole⟩
          exact hrole (hall role hmem)
        simp only [SelfRegister, GetAll, recording, NewSelfRegistrationRolesServiceImpl, h,
          collectRoles_eq, Option.map_none', List.length_eq_zero, List.map_eq_nil_iff,
          List.filter_eq_nil_iff, ne_eq, decide_eq_true_eq, not_not, true_and]
        rw [if_pos hall]
        simp [hex]
      · have hex : ∃ role ∈ entries.getD [], ¬ role.Role = "" := by
          by_contra hcon
          apply hall
          intro a ha
          by_contra hne
          exact hcon ⟨a, ha, hne⟩
        simp only [SelfRegister, GetAll, recording, NewSelfRegistrationRolesServiceImpl, h,
          collectRoles_eq, Option.map_none', List.length_eq_zero, List.map_eq_nil_iff,
          List.filter_eq_nil_iff, ne_eq, decide_eq_true_eq, not_not, true_and]
        rw [if_neg hall]
        simp [hex]

/-- C9, evaluated at the catalog with the role `admin`: on the service that
`NewSelfRegistrationRolesServiceImpl` builds, `SelfRegister` makes no `CreateUser` call and
ends in a nil-pointer panic, where the same catalog with a user-provisioning collaborator in
place gives one `CreateUser` call with the email and the role `admin` and returns. -/
theorem SelfRegister_new_service_panics :
    SelfRegister (recording (NewSelfRegistrationRolesServiceImpl adminCatalog))
        "new.user@example.com" ((), []) =
      (Completion.nilPointerPanic, ((), [])) ∧
    SelfRegister (recording ⟨adminCatalog, some acceptingUserService⟩)
        "new.user@example.com" ((), []) =
      (Completion.returned,
        ((), [{ EmailId := "new.user@example.com", Roles := ["admin"] }])) := by
  decide

end User
